import Mathlib

/-!
# Sailfish alignment model (`src/AlignmentModel.cpp`)

A shallow embedding of `AlignmentModel`: the CIGAR walk that scores an
alignment (`logLikelihood`), the walk that trains the model (`update`), the
pair / orphan dispatch in front of them, and `hasIndel`.

Conventions of the embedding.

* `double` log-values are an arbitrary type `α` with a zero and an addition
  satisfying `0 + x = x` and `x + 0 = x` (`AddZeroClass`); no associativity or
  commutativity is assumed, sums are taken in the order the code takes them.
* The only other floating-point computation, the position bin
  `static_cast<uint32_t>(readIdx * invLen)`, is embedded exactly: binary64
  round-to-nearest-even on non-negative values, computed over `Nat`.
* Constants and tables of headers other than `AlignmentModel.cpp` itself
  (`AlignmentModel.hpp`, `SailfishMath.hpp`, `SailfishStringUtils.hpp`) are
  fields of `Header`.
* Pointers that may be null are `Option`; dereferencing a null pointer makes
  the entry point return `none`.
* Fields named `steps`, `refLookups` are ghost traces: they record what the
  loop does and never influence it.
-/

namespace Sailfish

/-! ## Binary64 arithmetic used for the position bin -/

/-- Nearest integer to `n / d`, ties to the even neighbour. -/
def divRoundEven (n d : Nat) : Nat :=
  let q := n / d
  let r := n % d
  if 2 * r < d then q
  else if d < 2 * r then q + 1
  else if q % 2 = 0 then q else q + 1

/-- Numerator of `(n / d) / 2 ^ e`. -/
def scaleNum (n : Nat) (e : Int) : Nat :=
  if e < 0 then n * 2 ^ e.natAbs else n

/-- Denominator of `(n / d) / 2 ^ e`. -/
def scaleDen (d : Nat) (e : Int) : Nat :=
  if e < 0 then d else d * 2 ^ e.toNat

/-- Index of the leading binary digit of `n` with at most `fuel` halvings. -/
def log2Aux : Nat → Nat → Nat
  | 0, _ => 0
  | fuel + 1, n => if n < 2 then 0 else log2Aux fuel (n / 2) + 1

/-- Index of the leading binary digit of `n`, the floor of its binary
logarithm (`0` for `n = 0`). -/
def log2 (n : Nat) : Nat := log2Aux n n

/-- The binary64 value nearest to the positive rational `n / d` (`d > 0`),
round-to-nearest-even with a 53-bit significand, returned as a fraction
`(num, den)` whose denominator is a power of two.  Exponent range is not
modelled: every value that occurs in the walk lies between `2 ^ (-31)` and
`2 ^ 96`, far from overflow and from the subnormals. -/
def roundToDouble (n d : Nat) : Nat × Nat :=
  if n = 0 then (0, 1)
  else
    let e0 : Int := (log2 n : Int) - (log2 d : Int) - 52
    let e : Int := if scaleNum n e0 < scaleDen d e0 * 2 ^ 52 then e0 - 1 else e0
    let m := divRoundEven (scaleNum n e) (scaleDen d e)
    if e < 0 then (m, 2 ^ e.natAbs) else (m * 2 ^ e.toNat, 1)

/-- The quotient `static_cast<double>(readBins_) / bam_seq_len(read)`
(`invLen`, lines 103 and 328) for a positive read length.  Both operands are
converted exactly (a `uint32_t` and an `int32_t`); the quotient is rounded. -/
def invLen (readBins seqLen : Nat) : Nat × Nat :=
  let b := roundToDouble readBins 1
  roundToDouble b.1 (b.2 * seqLen)

/-- The bin `static_cast<uint32_t>(readIdx * invLen)` (lines 202 and 425):
`readIdx` is converted to `double`, the product is rounded, the result is
truncated towards zero.  For a read of length zero the quotient is infinite or
a NaN and the conversion is undefined in C++; the embedding returns `0` there.
A product of `2 ^ 32` or more is also outside the conversion's domain; the
embedding keeps the low 32 bits. -/
def posBin (readBins seqLen readIdx : Nat) : Nat :=
  if seqLen = 0 then 0
  else
    let inv := invLen readBins seqLen
    let r := roundToDouble readIdx 1
    let p := roundToDouble (r.1 * inv.1) (r.2 * inv.2)
    (p.1 / p.2) % 2 ^ 32

/-! ## Collaborators: headers, reads, references, hits -/

/-- Modelled from the spec: `sailfish::math::LOG_1`, the log of probability
one, "log(1)=0" (the constant is declared in `SailfishMath.hpp`). -/
def LOG_1 {α : Type} [Zero α] : α := 0

/-- Constants and tables declared in headers, outside `AlignmentModel.cpp`.
`LOG_0` and `LOG_EPSILON` are the two sentinels of `SailfishMath.hpp`;
`numStates`, `startStateIdx` and the `ALN_*` symbols come from
`AlignmentModel.hpp`; `samToTwoBit` is the table of `SailfishStringUtils.hpp`.
The header's categories are 8-bit table entries and small enumerators, so the
`uint32_t` state index computed from them does not wrap.  The two booleans say
what `BAM_CONSUME_SEQ` / `BAM_CONSUME_REF` answer for an operation code that is
none of the nine named ones. -/
structure Header (α : Type) where
  LOG_0 : α
  LOG_EPSILON : α
  numStates : Nat
  startStateIdx : Nat
  ALN_DASH : Nat
  ALN_SOFT_CLIP : Nat
  ALN_HARD_CLIP : Nat
  ALN_PAD : Nat
  ALN_REF_SKIP : Nat
  samToTwoBit : Nat → Nat
  consumeSeqUnknown : Bool
  consumeRefUnknown : Bool

/-- The operation kinds the two `switch` statements name. -/
inductive cigar_op where
  | BAM_UNKNOWN
  | BAM_CMATCH
  | BAM_CINS
  | BAM_CDEL
  | BAM_CREF_SKIP
  | BAM_CSOFT_CLIP
  | BAM_CHARD_CLIP
  | BAM_CPAD
  | BAM_CBASE_MATCH
  | BAM_CBASE_MISMATCH
  deriving DecidableEq, Repr

/-- Modelled from the spec: `BAM_CIGAR_SHIFT` of the alignment-record reader,
the run length sits above the low four bits of a CIGAR word. -/
def BAM_CIGAR_SHIFT : Nat := 4

/-- Modelled from the spec: `BAM_CIGAR_MASK` of the alignment-record reader,
the operation code is the low four bits of a CIGAR word. -/
def BAM_CIGAR_MASK : Nat := 15

/-- Modelled from the spec: the reader's numbering of operation codes, which
`static_cast<enum cigar_op>` turns into an operation.  A code that is none of
the nine named operations selects no override case of the `switch`, which is
also what `BAM_UNKNOWN` does. -/
def cigar_op.ofCode : Nat → cigar_op
  | 0 => .BAM_CMATCH
  | 1 => .BAM_CINS
  | 2 => .BAM_CDEL
  | 3 => .BAM_CREF_SKIP
  | 4 => .BAM_CSOFT_CLIP
  | 5 => .BAM_CHARD_CLIP
  | 6 => .BAM_CPAD
  | 7 => .BAM_CBASE_MATCH
  | 8 => .BAM_CBASE_MISMATCH
  | _ => .BAM_UNKNOWN

/-- Code of an operation in a CIGAR word (inverse of `cigar_op.ofCode` on the
nine named operations; `15` stands for an unknown code). -/
def cigar_op.code : cigar_op → Nat
  | .BAM_CMATCH => 0
  | .BAM_CINS => 1
  | .BAM_CDEL => 2
  | .BAM_CREF_SKIP => 3
  | .BAM_CSOFT_CLIP => 4
  | .BAM_CHARD_CLIP => 5
  | .BAM_CPAD => 6
  | .BAM_CBASE_MATCH => 7
  | .BAM_CBASE_MISMATCH => 8
  | .BAM_UNKNOWN => 15

/-- A CIGAR word: run length above the operation code. -/
def cigarWord (opLen : Nat) (op : cigar_op) : Nat :=
  opLen * 2 ^ BAM_CIGAR_SHIFT + op.code

/-- Modelled from the spec: `BAM_CONSUME_SEQ`, "match-type operations consume
both; insertion/soft-clip consume only the read; deletion/reference-skip
consume only the reference; hard-clip/pad consume neither". -/
def BAM_CONSUME_SEQ {α : Type} (H : Header α) : cigar_op → Bool
  | .BAM_CMATCH | .BAM_CBASE_MATCH | .BAM_CBASE_MISMATCH => true
  | .BAM_CINS | .BAM_CSOFT_CLIP => true
  | .BAM_CDEL | .BAM_CREF_SKIP => false
  | .BAM_CHARD_CLIP | .BAM_CPAD => false
  | .BAM_UNKNOWN => H.consumeSeqUnknown

/-- Modelled from the spec: `BAM_CONSUME_REF`, see `BAM_CONSUME_SEQ`. -/
def BAM_CONSUME_REF {α : Type} (H : Header α) : cigar_op → Bool
  | .BAM_CMATCH | .BAM_CBASE_MATCH | .BAM_CBASE_MISMATCH => true
  | .BAM_CINS | .BAM_CSOFT_CLIP => false
  | .BAM_CDEL | .BAM_CREF_SKIP => true
  | .BAM_CHARD_CLIP | .BAM_CPAD => false
  | .BAM_UNKNOWN => H.consumeRefUnknown

/-- An alignment record (`bam_seq_t`) as the walk sees it: `bam_pos`,
`bam_seq_len`, the CIGAR words (`none` for a null `bam_cigar` pointer,
`bam_cigar_len` is the length of the list) and `bam_seqi(qseq, i)`, the 4-bit
base code at index `i`.  `seq` is total: the code also reads it at indices
that are not below `len`. -/
structure BamSeq where
  pos : Int
  len : Nat
  cigar : Option (List Nat)
  seq : Nat → Nat

/-- The reference (`Transcript`): its length and the forward-strand base
lookup.  `baseAt` is total: the code also calls it at `RefLength`. -/
structure Transcript where
  RefLength : Nat
  baseAt : Nat → Nat

/-- Orphan status of a `ReadPair` hit. -/
inductive OrphanStatus where
  | Paired
  | LeftOrphan
  | RightOrphan
  deriving DecidableEq, Repr

/-- A paired hit: two record pointers, either of which may be null, and the
orphan status. -/
structure ReadPair where
  read1 : Option BamSeq
  read2 : Option BamSeq
  orphanStatus : OrphanStatus

/-- Modelled from the spec: pairing status of a `ReadPair` hit. -/
def ReadPair.isPaired (hit : ReadPair) : Bool :=
  hit.orphanStatus = .Paired

/-- Modelled from the spec: orphan-side flag of a `ReadPair` hit. -/
def ReadPair.isLeftOrphan (hit : ReadPair) : Bool :=
  hit.orphanStatus = .LeftOrphan

/-- A single-read hit: its record pointer and, modelled from the spec ("hit
containers expose pairing/orphan status"), an orphan-side flag.  No function
of `AlignmentModel.cpp` consults the flag. -/
structure UnpairedRead where
  read : Option BamSeq
  leftOrphan : Bool

/-- Modelled from the spec: orphan-side flag of an `UnpairedRead` hit. -/
def UnpairedRead.isLeftOrphan (hit : UnpairedRead) : Bool :=
  hit.leftOrphan

/-- Modelled from the spec: `AtomicMatrix<double>`, a square matrix of stored
log-values; `m r c` is `operator()(r, c)`. -/
abbrev AtomicMatrix (α : Type) := Nat → Nat → α

/-- Modelled from the spec: `AtomicMatrix::increment`, "increment the count at
that same cell by the weight"; every other cell keeps its value. -/
def AtomicMatrix.increment {α : Type} [Add α] (m : AtomicMatrix α) (r c : Nat) (amt : α) :
    AtomicMatrix α :=
  fun i j => if i = r ∧ j = c then m i j + amt else m i j

/-- A matrix set, `std::vector<AtomicMatrix<double>>` indexed by position bin.
The vector has `readBins_` entries; the embedding is total in the index and
the ghost traces record which index was used. -/
abbrev MatrixSet (α : Type) := Nat → AtomicMatrix α

/-- The statement `transitionProbs[bin].increment(r, c, amt)`. -/
def MatrixSet.incrementAt {α : Type} [Add α] (tp : MatrixSet α) (bin r c : Nat) (amt : α) :
    MatrixSet α :=
  fun b => if b = bin then (tp b).increment r c amt else tp b

/-- The model object (`AlignmentModel`). -/
structure AlignmentModel (α : Type) where
  maxExpectedLen_ : Nat
  transitionProbsLeft_ : MatrixSet α
  transitionProbsRight_ : MatrixSet α
  isEnabled_ : Bool
  maxLen_ : Nat
  readBins_ : Nat
  burnedIn_ : Bool

/-! ## The CIGAR walk -/

/-- Ghost record of one unit step of a walk: the operation, the read and
reference cursors when the step starts, and the matrix cell the step uses,
`transitionProbs[bin](prev, cur)`. -/
structure Step where
  op : cigar_op
  readIdx : Nat
  refIdx : Nat
  bin : Nat
  prev : Nat
  cur : Nat
  deriving DecidableEq, Repr

/-- The `switch (op)` of both walks (lines 113-191 and 337-415, the same
text): the categories `(curRefBase, curReadBase)` after the case for `op`. -/
def switchOp {α : Type} (H : Header α) (op : cigar_op) (curRefBase curReadBase : Nat) :
    Nat × Nat :=
  match op with
  | .BAM_UNKNOWN => (curRefBase, curReadBase)
  | .BAM_CMATCH => (curRefBase, curReadBase)
  | .BAM_CBASE_MATCH => (curRefBase, curReadBase)
  | .BAM_CBASE_MISMATCH => (curRefBase, curReadBase)
  | .BAM_CINS => (H.ALN_DASH, curReadBase)
  | .BAM_CDEL => (curRefBase, H.ALN_DASH)
  | .BAM_CREF_SKIP => (curRefBase, H.ALN_REF_SKIP)
  | .BAM_CSOFT_CLIP => (H.ALN_SOFT_CLIP, curReadBase)
  | .BAM_CHARD_CLIP => (H.ALN_HARD_CLIP, H.ALN_HARD_CLIP)
  | .BAM_CPAD => (H.ALN_PAD, H.ALN_PAD)

/-- Local variables of `logLikelihood(bam_seq_t*, ...)` that live across loop
iterations, with the ghost traces `steps` (unit steps, in order) and
`refLookups` (arguments of `ref.baseAt`, in order). -/
structure ScoreVars (α : Type) where
  logLike : α
  readIdx : Nat
  uTranscriptIdx : Nat
  readPosBin : Nat
  prevStateIdx : Nat
  curReadBase : Nat
  curRefBase : Nat
  steps : List Step
  refLookups : List Nat

/-- One iteration of the inner loop of the scoring walk (lines 113-207). -/
def logLikelihoodStep {α : Type} [Add α] (H : Header α) (readBins : Nat) (read : BamSeq)
    (ref : Transcript) (transitionProbs : MatrixSet α) (op : cigar_op) (s : ScoreVars α) :
    ScoreVars α :=
  let bases := switchOp H op s.curRefBase s.curReadBase
  let curStateIdx := bases.1 * H.numStates + bases.2
  let tp := transitionProbs s.readPosBin s.prevStateIdx curStateIdx
  let s1 : ScoreVars α :=
    { s with
      logLike := s.logLike + tp
      prevStateIdx := curStateIdx
      curRefBase := bases.1
      curReadBase := bases.2
      steps := s.steps ++ [⟨op, s.readIdx, s.uTranscriptIdx, s.readPosBin, s.prevStateIdx,
        curStateIdx⟩] }
  let s2 : ScoreVars α :=
    if BAM_CONSUME_SEQ H op then
      { s1 with
        readIdx := s1.readIdx + 1
        curReadBase := H.samToTwoBit (read.seq (s1.readIdx + 1))
        readPosBin := posBin readBins read.len (s1.readIdx + 1) }
    else s1
  if BAM_CONSUME_REF H op then
    { s2 with
      uTranscriptIdx := s2.uTranscriptIdx + 1
      curRefBase := H.samToTwoBit (ref.baseAt (s2.uTranscriptIdx + 1))
      refLookups := s2.refLookups ++ [s2.uTranscriptIdx + 1] }
  else s2

/-- The inner loop `for (size_t i = 0; i < opLen; ++i)` of the scoring walk. -/
def logLikelihoodRun {α : Type} [Add α] (H : Header α) (readBins : Nat) (read : BamSeq)
    (ref : Transcript) (transitionProbs : MatrixSet α) (op : cigar_op) :
    Nat → ScoreVars α → ScoreVars α
  | 0, s => s
  | opLen + 1, s =>
    logLikelihoodRun H readBins read ref transitionProbs op opLen
      (logLikelihoodStep H readBins read ref transitionProbs op s)

/-- The outer loop over the CIGAR words of the scoring walk (lines 105-221):
decode the word, load both categories at the cursors, run the unit steps. -/
def logLikelihoodOps {α : Type} [Add α] (H : Header α) (readBins : Nat) (read : BamSeq)
    (ref : Transcript) (transitionProbs : MatrixSet α) : List Nat → ScoreVars α → ScoreVars α
  | [], s => s
  | w :: cigar, s =>
    let opLen := w >>> BAM_CIGAR_SHIFT
    let op := cigar_op.ofCode (w &&& BAM_CIGAR_MASK)
    let s0 : ScoreVars α :=
      { s with
        curReadBase := H.samToTwoBit (read.seq s.readIdx)
        curRefBase := H.samToTwoBit (ref.baseAt s.uTranscriptIdx)
        refLookups := s.refLookups ++ [s.uTranscriptIdx] }
    logLikelihoodOps H readBins read ref transitionProbs cigar
      (logLikelihoodRun H readBins read ref transitionProbs op opLen s0)

/-- Variables of a walk before its first loop iteration: `readIdx` and
`uTranscriptIdx` after the adjustment for a negative start (lines 63-74 and
296-306), bin `0`, previous state `startStateIdx`, accumulator `v`. -/
def scoreInit {α : Type} (H : Header α) (read : BamSeq) (v : α) : ScoreVars α :=
  { logLike := v
    readIdx := if read.pos < 0 then (-read.pos).toNat else 0
    uTranscriptIdx := (if read.pos < 0 then 0 else read.pos).toNat
    readPosBin := 0
    prevStateIdx := H.startStateIdx
    curReadBase := 0
    curRefBase := 0
    steps := []
    refLookups := [] }

/-- The scoring walk `logLikelihood(bam_seq_t*, Transcript&, vector&)` with
its ghost traces: the returned `logLike` is the function's result. -/
def logLikelihoodVars {α : Type} [AddZeroClass α] (H : Header α) (readBins : Nat)
    (read : BamSeq) (ref : Transcript) (transitionProbs : MatrixSet α) : ScoreVars α :=
  if ref.RefLength ≤ (scoreInit H read (LOG_1 : α)).uTranscriptIdx then
    scoreInit H read H.LOG_0
  else
    match read.cigar with
    | none => scoreInit H read H.LOG_EPSILON
    | some [] => scoreInit H read H.LOG_EPSILON
    | some (w :: cigar) =>
      logLikelihoodOps H readBins read ref transitionProbs (w :: cigar)
        (scoreInit H read (LOG_1 : α))

/-- The scoring walk `logLikelihood(bam_seq_t*, Transcript&, vector&)`
(lines 59-223). -/
def logLikelihood {α : Type} [AddZeroClass α] (H : Header α) (readBins : Nat)
    (read : BamSeq) (ref : Transcript) (transitionProbs : MatrixSet α) : α :=
  (logLikelihoodVars H readBins read ref transitionProbs).logLike

/-- Local variables of `update(bam_seq_t*, ...)` that live across loop
iterations: the matrix set being trained, the cursors, and the ghost traces. -/
structure TrainVars (α : Type) where
  transitionProbs : MatrixSet α
  readIdx : Nat
  uTranscriptIdx : Nat
  readPosBin : Nat
  prevStateIdx : Nat
  curReadBase : Nat
  curRefBase : Nat
  steps : List Step
  refLookups : List Nat

/-- One iteration of the inner loop of the training walk (lines 337-430). -/
def updateStep {α : Type} [Add α] (H : Header α) (readBins : Nat) (read : BamSeq)
    (ref : Transcript) (p mass : α) (op : cigar_op) (s : TrainVars α) : TrainVars α :=
  let bases := switchOp H op s.curRefBase s.curReadBase
  let curStateIdx := bases.1 * H.numStates + bases.2
  let s1 : TrainVars α :=
    { s with
      transitionProbs :=
        s.transitionProbs.incrementAt s.readPosBin s.prevStateIdx curStateIdx (mass + p)
      prevStateIdx := curStateIdx
      curRefBase := bases.1
      curReadBase := bases.2
      steps := s.steps ++ [⟨op, s.readIdx, s.uTranscriptIdx, s.readPosBin, s.prevStateIdx,
        curStateIdx⟩] }
  let s2 : TrainVars α :=
    if BAM_CONSUME_SEQ H op then
      { s1 with
        readIdx := s1.readIdx + 1
        curReadBase := H.samToTwoBit (read.seq (s1.readIdx + 1))
        readPosBin := posBin readBins read.len (s1.readIdx + 1) }
    else s1
  if BAM_CONSUME_REF H op then
    { s2 with
      uTranscriptIdx := s2.uTranscriptIdx + 1
      curRefBase := H.samToTwoBit (ref.baseAt (s2.uTranscriptIdx + 1))
      refLookups := s2.refLookups ++ [s2.uTranscriptIdx + 1] }
  else s2

/-- The inner loop `for (size_t i = 0; i < opLen; ++i)` of the training walk. -/
def updateRun {α : Type} [Add α] (H : Header α) (readBins : Nat) (read : BamSeq)
    (ref : Transcript) (p mass : α) (op : cigar_op) : Nat → TrainVars α → TrainVars α
  | 0, s => s
  | opLen + 1, s =>
    updateRun H readBins read ref p mass op opLen (updateStep H readBins read ref p mass op s)

/-- The outer loop over the CIGAR words of the training walk (lines 331-432). -/
def updateOps {α : Type} [Add α] (H : Header α) (readBins : Nat) (read : BamSeq)
    (ref : Transcript) (p mass : α) : List Nat → TrainVars α → TrainVars α
  | [], s => s
  | w :: cigar, s =>
    let opLen := w >>> BAM_CIGAR_SHIFT
    let op := cigar_op.ofCode (w &&& BAM_CIGAR_MASK)
    let s0 : TrainVars α :=
      { s with
        curReadBase := H.samToTwoBit (read.seq s.readIdx)
        curRefBase := H.samToTwoBit (ref.baseAt s.uTranscriptIdx)
        refLookups := s.refLookups ++ [s.uTranscriptIdx] }
    updateOps H readBins read ref p mass cigar
      (updateRun H readBins read ref p mass op opLen s0)

/-- Variables of the training walk before its first loop iteration. -/
def trainInit {α : Type} (H : Header α) (read : BamSeq) (transitionProbs : MatrixSet α) :
    TrainVars α :=
  { transitionProbs := transitionProbs
    readIdx := if read.pos < 0 then (-read.pos).toNat else 0
    uTranscriptIdx := (if read.pos < 0 then 0 else read.pos).toNat
    readPosBin := 0
    prevStateIdx := H.startStateIdx
    curReadBase := 0
    curRefBase := 0
    steps := []
    refLookups := [] }

/-- The training walk `update(bam_seq_t*, Transcript&, double, double,
vector&)` (lines 292-444) with its ghost traces: `transitionProbs` of the
result is the matrix set after the call. -/
def update {α : Type} [Add α] (H : Header α) (readBins : Nat) (read : BamSeq)
    (ref : Transcript) (p mass : α) (transitionProbs : MatrixSet α) : TrainVars α :=
  match read.cigar with
  | none => trainInit H read transitionProbs
  | some [] => trainInit H read transitionProbs
  | some (w :: cigar) =>
    updateOps H readBins read ref p mass (w :: cigar) (trainInit H read transitionProbs)

/-! ## Entry points -/

/-- The ternary `(bam_pos(read1) < bam_pos(read2)) ? read1 : read2`
(lines 237 and 450). -/
def leftRead (read1 read2 : BamSeq) : BamSeq :=
  if read1.pos < read2.pos then read1 else read2

/-- The ternary `(bam_pos(read1) < bam_pos(read2)) ? read2 : read1`
(lines 238 and 451). -/
def rightRead (read1 read2 : BamSeq) : BamSeq :=
  if read1.pos < read2.pos then read2 else read1

/-- Scoring entry point `logLikelihood(const ReadPair&, Transcript&)`
(lines 225-263).  In the paired branch both pointers are dereferenced by
`bam_pos` before the null tests of lines 249 and 253, so a null mate gives
`none` and the tests succeed whenever they are reached. -/
def logLikelihoodReadPair {α : Type} [AddZeroClass α] (H : Header α) (m : AlignmentModel α)
    (hit : ReadPair) (ref : Transcript) : Option α :=
  let logLike : α := LOG_1
  if !m.isEnabled_ then some logLike
  else if !hit.isPaired then
    match hit.read1 with
    | none => none
    | some read1 =>
      if hit.isLeftOrphan then
        some (logLikelihood H m.readBins_ read1 ref m.transitionProbsLeft_)
      else
        some (logLikelihood H m.readBins_ read1 ref m.transitionProbsRight_)
  else
    match hit.read1, hit.read2 with
    | some read1, some read2 =>
      let leftLen := (leftRead read1 read2).len
      let rightLen := (rightRead read1 read2).len
      if m.maxExpectedLen_ < leftLen ∨ m.maxExpectedLen_ < rightLen then some logLike
      else
        let logLike1 :=
          logLike + logLikelihood H m.readBins_ (leftRead read1 read2) ref m.transitionProbsLeft_
        let logLike2 :=
          logLike1 +
            logLikelihood H m.readBins_ (rightRead read1 read2) ref m.transitionProbsRight_
        some logLike2
    | _, _ => none

/-- Scoring entry point `logLikelihood(const UnpairedRead&, Transcript&)`
(lines 265-283). -/
def logLikelihoodUnpairedRead {α : Type} [AddZeroClass α] (H : Header α)
    (m : AlignmentModel α) (hit : UnpairedRead) (ref : Transcript) : Option α :=
  let logLike : α := LOG_1
  if !m.isEnabled_ then some logLike
  else
    match hit.read with
    | none => none
    | some read =>
      if m.maxExpectedLen_ < read.len then some logLike
      else some (logLike + logLikelihood H m.readBins_ read ref m.transitionProbsLeft_)

/-- Training entry point `update(const UnpairedRead&, Transcript&, double,
double)` (lines 285-290): the model after the call. -/
def updateUnpairedRead {α : Type} [AddZeroClass α] [DecidableEq α] (H : Header α)
    (m : AlignmentModel α) (hit : UnpairedRead) (ref : Transcript) (p mass : α) :
    Option (AlignmentModel α) :=
  if mass = H.LOG_0 then some m
  else if !m.isEnabled_ then some m
  else
    match hit.read with
    | none => none
    | some read =>
      some { m with
        transitionProbsLeft_ :=
          (update H m.readBins_ read ref p mass m.transitionProbsLeft_).transitionProbs }

/-- Training entry point `update(const ReadPair&, Transcript&, double,
double)` (lines 446-460): the model after the call.  Both pointers are
dereferenced by `bam_pos` before the null tests. -/
def updateReadPair {α : Type} [AddZeroClass α] [DecidableEq α] (H : Header α)
    (m : AlignmentModel α) (hit : ReadPair) (ref : Transcript) (p mass : α) :
    Option (AlignmentModel α) :=
  if mass = H.LOG_0 then some m
  else if !m.isEnabled_ then some m
  else
    match hit.read1, hit.read2 with
    | some read1, some read2 =>
      some { m with
        transitionProbsLeft_ :=
          (update H m.readBins_ (leftRead read1 read2) ref p mass
            m.transitionProbsLeft_).transitionProbs
        transitionProbsRight_ :=
          (update H m.readBins_ (rightRead read1 read2) ref p mass
            m.transitionProbsRight_).transitionProbs }
    | _, _ => none

/-- The loop of `hasIndel(bam_seq_t*)` (lines 43-55). -/
def hasIndelOps : List Nat → Bool
  | [] => false
  | w :: cigar =>
    match cigar_op.ofCode (w &&& BAM_CIGAR_MASK) with
    | .BAM_CINS => true
    | .BAM_CDEL => true
    | _ => hasIndelOps cigar

/-- The function `hasIndel(bam_seq_t*)` (lines 39-57); with a null CIGAR pointer
and a length of zero the loop body is never entered. -/
def hasIndel (read : BamSeq) : Bool :=
  match read.cigar with
  | none => false
  | some cigar => hasIndelOps cigar

/-- The function `hasIndel(UnpairedRead&)` (lines 34-36). -/
def hasIndelUnpairedRead (hit : UnpairedRead) : Option Bool :=
  hit.read.map hasIndel

/-- The function `hasIndel(ReadPair&)` (lines 26-31). -/
def hasIndelReadPair (hit : ReadPair) : Option Bool :=
  if !hit.isPaired then hit.read1.map hasIndel
  else
    match hit.read1 with
    | none => none
    | some read1 =>
      if hasIndel read1 then some true else hit.read2.map hasIndel

/-! ## Vocabulary of the properties -/

/-- The cursors, categories and ghost traces that `ScoreVars` and `TrainVars`
have in common. -/
structure Cursor where
  readIdx : Nat
  uTranscriptIdx : Nat
  readPosBin : Nat
  prevStateIdx : Nat
  curReadBase : Nat
  curRefBase : Nat
  steps : List Step
  refLookups : List Nat

/-- The cursor part of the variables of the scoring walk. -/
def ScoreVars.cursor {α : Type} (s : ScoreVars α) : Cursor :=
  ⟨s.readIdx, s.uTranscriptIdx, s.readPosBin, s.prevStateIdx, s.curReadBase, s.curRefBase,
    s.steps, s.refLookups⟩

/-- The cursor part of the variables of the training walk. -/
def TrainVars.cursor {α : Type} (s : TrainVars α) : Cursor :=
  ⟨s.readIdx, s.uTranscriptIdx, s.readPosBin, s.prevStateIdx, s.curReadBase, s.curRefBase,
    s.steps, s.refLookups⟩

/-- Category of the reference base at position `i`,
`samToTwoBit[ref.baseAt(i, readStrand)]`. -/
def refCategory {α : Type} (H : Header α) (ref : Transcript) (i : Nat) : Nat :=
  H.samToTwoBit (ref.baseAt i)

/-- Category of the read base at index `i`, `samToTwoBit[bam_seqi(qseq, i)]`. -/
def readCategory {α : Type} (H : Header α) (read : BamSeq) (i : Nat) : Nat :=
  H.samToTwoBit (read.seq i)

/-- The encoder of the specification, in its words: the pair (reference
category, read category) for an operation, given the categories decoded at the
cursors.  Insertion forces the reference category to the gap symbol; deletion
forces the read category to the gap symbol; reference skip forces the read
category to the skip symbol; soft clip forces the reference category to the
soft-clip symbol; hard clip and pad force both; the match-type operations, and
an unknown operation, leave both as decoded. -/
def encoderCategories {α : Type} (H : Header α) (op : cigar_op) (refCat readCat : Nat) :
    Nat × Nat :=
  if op = .BAM_CINS then (H.ALN_DASH, readCat)
  else if op = .BAM_CDEL then (refCat, H.ALN_DASH)
  else if op = .BAM_CREF_SKIP then (refCat, H.ALN_REF_SKIP)
  else if op = .BAM_CSOFT_CLIP then (H.ALN_SOFT_CLIP, readCat)
  else if op = .BAM_CHARD_CLIP then (H.ALN_HARD_CLIP, H.ALN_HARD_CLIP)
  else if op = .BAM_CPAD then (H.ALN_PAD, H.ALN_PAD)
  else (refCat, readCat)

/-- The composite state of the specification,
`refCategory * numStates + readCategory` after the encoder's overrides. -/
def encoderState {α : Type} (H : Header α) (op : cigar_op) (refCat readCat : Nat) : Nat :=
  (encoderCategories H op refCat readCat).1 * H.numStates +
    (encoderCategories H op refCat readCat).2

/-- The composite state of an aligned pair of bases: reference position `i`
against read index `i`. -/
def matchState {α : Type} (H : Header α) (read : BamSeq) (ref : Transcript) (i : Nat) : Nat :=
  refCategory H ref i * H.numStates + readCategory H read i

/-- The state that precedes `matchState` at `i`: the start state for `i = 0`,
`matchState` at `i - 1` otherwise. -/
def matchPrevState {α : Type} (H : Header α) (read : BamSeq) (ref : Transcript) : Nat → Nat
  | 0 => H.startStateIdx
  | i + 1 => matchState H read ref i

/-! ## Sample inputs

Concrete inputs on which the definitions are evaluated.  Log-values are
integers here. -/

/-- A sample header: nine categories (four bases, gap, soft clip, hard clip,
pad, reference skip), start state `81`, the 4-bit base codes `1, 2, 4, 8`
mapped to the categories `0, 1, 2, 3`, and two distinct sentinels. -/
def exHeader : Header Int :=
  { LOG_0 := 1000000
    LOG_EPSILON := -24
    numStates := 9
    startStateIdx := 81
    ALN_DASH := 4
    ALN_SOFT_CLIP := 5
    ALN_HARD_CLIP := 6
    ALN_PAD := 7
    ALN_REF_SKIP := 8
    samToTwoBit := fun c => if c = 2 then 1 else if c = 4 then 2 else if c = 8 then 3 else 0
    consumeSeqUnknown := false
    consumeRefUnknown := false }

/-- A sample reference of the given length, bases `C, T, C, T, ...`. -/
def exRef (len : Nat) : Transcript :=
  { RefLength := len
    baseAt := fun i => if i % 2 = 0 then 2 else 8 }

/-- A sample read with the given start, length and CIGAR, bases
`A, C, C, A, C, C, ...`. -/
def exRead (pos : Int) (len : Nat) (cigar : List Nat) : BamSeq :=
  { pos := pos
    len := len
    cigar := some cigar
    seq := fun i => if i % 3 = 0 then 1 else 2 }

/-- A sample read with the given start whose bases are all `G`, of length one
with the CIGAR `1M`. -/
def exReadG (pos : Int) : BamSeq :=
  { pos := pos
    len := 1
    cigar := some [cigarWord 1 .BAM_CMATCH]
    seq := fun _ => 4 }

/-- A sample left matrix set: the value of a cell tells its bin. -/
def exLeft : MatrixSet Int := fun b _ _ => -((b : Int) + 1)

/-- A sample right matrix set: the value of a cell tells its column. -/
def exRight : MatrixSet Int := fun _ _ c => -((c : Int) + 100)

/-- A sample enabled model with the given number of bins and a maximum
expected read length of `200`. -/
def exModel (readBins : Nat) : AlignmentModel Int :=
  { maxExpectedLen_ := 200
    transitionProbsLeft_ := exLeft
    transitionProbsRight_ := exRight
    isEnabled_ := true
    maxLen_ := 0
    readBins_ := readBins
    burnedIn_ := false }

/-! ## Decoding of CIGAR words -/

theorem cigar_op_ofCode_code (op : cigar_op) : cigar_op.ofCode op.code = op := by
  cases op <;> rfl

theorem cigar_op_code_lt (op : cigar_op) : op.code < 16 := by
  cases op <;> decide

theorem cigarWord_opLen (opLen : Nat) (op : cigar_op) :
    cigarWord opLen op >>> BAM_CIGAR_SHIFT = opLen := by
  have h := cigar_op_code_lt op
  unfold cigarWord BAM_CIGAR_SHIFT
  rw [Nat.shiftRight_eq_div_pow]
  omega

theorem cigarWord_op (opLen : Nat) (op : cigar_op) :
    cigar_op.ofCode (cigarWord opLen op &&& BAM_CIGAR_MASK) = op := by
  have h := cigar_op_code_lt op
  have hm := Nat.and_pow_two_sub_one_eq_mod (cigarWord opLen op) 4
  have h15 : (2 : Nat) ^ 4 - 1 = BAM_CIGAR_MASK := rfl
  rw [h15] at hm
  rw [hm]
  have hc : cigarWord opLen op % 2 ^ 4 = op.code := by
    unfold cigarWord BAM_CIGAR_SHIFT
    omega
  rw [hc, cigar_op_ofCode_code]

/-! ## The early exits of the scoring walk -/

theorem scoreInit_uTranscriptIdx {α : Type} (H : Header α) (read : BamSeq) (v : α) :
    (scoreInit H read v).uTranscriptIdx = (max read.pos 0).toNat := by
  unfold scoreInit
  by_cases h : read.pos < 0
  · simp [h, max_eq_right (le_of_lt h)]
  · simp [h, max_eq_left (not_lt.mp h)]

/-- C4: when the reference cursor after the adjustment for a negative start,
`max(startOffset, 0)`, is not below the reference length, the scoring walk
returns `LOG_0` and performs no unit step, so it reads no matrix cell. -/
theorem logLikelihood_start_past_reference {α : Type} [AddZeroClass α] (H : Header α)
    (readBins : Nat) (read : BamSeq) (ref : Transcript) (transitionProbs : MatrixSet α)
    (h : ref.RefLength ≤ (max read.pos 0).toNat) :
    logLikelihood H readBins read ref transitionProbs = H.LOG_0 ∧
      (logLikelihoodVars H readBins read ref transitionProbs).steps = [] := by
  have hu : ref.RefLength ≤ (scoreInit H read (LOG_1 : α)).uTranscriptIdx := by
    rw [scoreInit_uTranscriptIdx]; exact h
  unfold logLikelihood logLikelihoodVars
  rw [if_pos hu]
  exact ⟨rfl, rfl⟩

theorem logLikelihood_start_past_reference_witness :
    (exRef 5).RefLength ≤ (max (exRead 7 4 [cigarWord 4 .BAM_CMATCH]).pos 0).toNat ∧
      (logLikelihood exHeader 4 (exRead 7 4 [cigarWord 4 .BAM_CMATCH]) (exRef 5) exLeft
          = exHeader.LOG_0 ∧
        (logLikelihoodVars exHeader 4 (exRead 7 4 [cigarWord 4 .BAM_CMATCH]) (exRef 5)
          exLeft).steps = []) :=
  ⟨by decide,
    logLikelihood_start_past_reference exHeader 4 (exRead 7 4 [cigarWord 4 .BAM_CMATCH])
      (exRef 5) exLeft (by decide)⟩

/-- C5, as stated, fails: a read with an empty operation list that starts at
position `5` of a reference of length `5` is scored `LOG_0`, which is not
`LOG_EPSILON`. -/
theorem logLikelihood_empty_cigar_not_epsilon :
    logLikelihood exHeader 4 (exRead 5 4 []) (exRef 5) exLeft = exHeader.LOG_0 ∧
      logLikelihood exHeader 4 (exRead 5 4 []) (exRef 5) exLeft ≠ exHeader.LOG_EPSILON := by
  decide

/-- C5, amended: for a read whose operation list is empty or absent and whose
adjusted start cursor `max(startOffset, 0)` is below the reference length, the
scoring walk returns `LOG_EPSILON`. -/
theorem logLikelihood_empty_cigar {α : Type} [AddZeroClass α] (H : Header α)
    (readBins : Nat) (read : BamSeq) (ref : Transcript) (transitionProbs : MatrixSet α)
    (hc : read.cigar = none ∨ read.cigar = some [])
    (h : (max read.pos 0).toNat < ref.RefLength) :
    logLikelihood H readBins read ref transitionProbs = H.LOG_EPSILON := by
  have hu : ¬ ref.RefLength ≤ (scoreInit H read (LOG_1 : α)).uTranscriptIdx := by
    rw [scoreInit_uTranscriptIdx]; exact not_le.mpr h
  unfold logLikelihood logLikelihoodVars
  rw [if_neg hu]
  rcases hc with hc | hc <;> rw [hc] <;> rfl

theorem logLikelihood_empty_cigar_witness :
    ((exRead 2 4 []).cigar = none ∨ (exRead 2 4 []).cigar = some []) ∧
      (max (exRead 2 4 []).pos 0).toNat < (exRef 5).RefLength ∧
      logLikelihood exHeader 4 (exRead 2 4 []) (exRef 5) exLeft = exHeader.LOG_EPSILON :=
  ⟨Or.inr rfl, by decide,
    logLikelihood_empty_cigar exHeader 4 (exRead 2 4 []) (exRef 5) exLeft (Or.inr rfl)
      (by decide)⟩

/-! ## The dispatch in front of the scoring walk -/

/-- C10: with the model disabled, both scoring entry points return `0`
(`LOG_1`) for every hit, paired or not, and every reference. -/
theorem logLikelihood_disabled {α : Type} [AddZeroClass α] (H : Header α)
    (m : AlignmentModel α) (ref : Transcript) (hm : m.isEnabled_ = false) :
    (∀ hit : ReadPair, logLikelihoodReadPair H m hit ref = some 0) ∧
      (∀ hit : UnpairedRead, logLikelihoodUnpairedRead H m hit ref = some 0) := by
  constructor
  · intro hit
    simp [logLikelihoodReadPair, hm, LOG_1]
  · intro hit
    simp [logLikelihoodUnpairedRead, hm, LOG_1]

theorem logLikelihood_disabled_witness :
    ({ exModel 4 with isEnabled_ := false } : AlignmentModel Int).isEnabled_ = false ∧
      ((∀ hit : ReadPair,
          logLikelihoodReadPair exHeader { exModel 4 with isEnabled_ := false } hit (exRef 10)
            = some 0) ∧
        (∀ hit : UnpairedRead,
          logLikelihoodUnpairedRead exHeader { exModel 4 with isEnabled_ := false } hit
            (exRef 10) = some 0)) :=
  ⟨rfl, logLikelihood_disabled exHeader { exModel 4 with isEnabled_ := false } (exRef 10) rfl⟩

/-- C7: on an enabled model, a paired hit with both mates present and neither
longer than the maximum expected read length scores the walk of the left mate
against the left matrix set plus the walk of the right mate against the right
matrix set; the mate with the smaller start position is the left one (with
equal start positions `read2` is). -/
theorem logLikelihoodReadPair_paired {α : Type} [AddZeroClass α] (H : Header α)
    (m : AlignmentModel α) (hit : ReadPair) (read1 read2 : BamSeq) (ref : Transcript)
    (hm : m.isEnabled_ = true) (hp : hit.isPaired = true)
    (h1 : hit.read1 = some read1) (h2 : hit.read2 = some read2)
    (hl1 : read1.len ≤ m.maxExpectedLen_) (hl2 : read2.len ≤ m.maxExpectedLen_) :
    (read1.pos < read2.pos →
        logLikelihoodReadPair H m hit ref =
          some (logLikelihood H m.readBins_ read1 ref m.transitionProbsLeft_ +
            logLikelihood H m.readBins_ read2 ref m.transitionProbsRight_)) ∧
      (read2.pos ≤ read1.pos →
        logLikelihoodReadPair H m hit ref =
          some (logLikelihood H m.readBins_ read2 ref m.transitionProbsLeft_ +
            logLikelihood H m.readBins_ read1 ref m.transitionProbsRight_)) := by
  constructor
  · intro hlt
    have hgt1 : ¬ m.maxExpectedLen_ < read1.len := not_lt.mpr hl1
    have hgt2 : ¬ m.maxExpectedLen_ < read2.len := not_lt.mpr hl2
    simp [logLikelihoodReadPair, hm, hp, h1, h2, leftRead, rightRead, hlt, hgt1, hgt2, LOG_1]
  · intro hle
    have hlt : ¬ read1.pos < read2.pos := not_lt.mpr hle
    have hgt1 : ¬ m.maxExpectedLen_ < read1.len := not_lt.mpr hl1
    have hgt2 : ¬ m.maxExpectedLen_ < read2.len := not_lt.mpr hl2
    simp [logLikelihoodReadPair, hm, hp, h1, h2, leftRead, rightRead, hlt, hgt1, hgt2, LOG_1]

theorem logLikelihoodReadPair_paired_witness :
    (exModel 4).isEnabled_ = true ∧
      (⟨some (exReadG 3), some (exRead 0 4 [cigarWord 4 .BAM_CMATCH]), .Paired⟩ :
        ReadPair).isPaired = true ∧
      (exReadG 3).len ≤ (exModel 4).maxExpectedLen_ ∧
      (exRead 0 4 [cigarWord 4 .BAM_CMATCH]).len ≤ (exModel 4).maxExpectedLen_ ∧
      (exRead 0 4 [cigarWord 4 .BAM_CMATCH]).pos ≤ (exReadG 3).pos ∧
      logLikelihoodReadPair exHeader (exModel 4)
          ⟨some (exReadG 3), some (exRead 0 4 [cigarWord 4 .BAM_CMATCH]), .Paired⟩ (exRef 10) =
        some (logLikelihood exHeader (exModel 4).readBins_
            (exRead 0 4 [cigarWord 4 .BAM_CMATCH]) (exRef 10) (exModel 4).transitionProbsLeft_ +
          logLikelihood exHeader (exModel 4).readBins_ (exReadG 3) (exRef 10)
            (exModel 4).transitionProbsRight_) :=
  ⟨rfl, rfl, by decide, by decide, by decide,
    (logLikelihoodReadPair_paired exHeader (exModel 4)
      ⟨some (exReadG 3), some (exRead 0 4 [cigarWord 4 .BAM_CMATCH]), .Paired⟩ (exReadG 3)
      (exRead 0 4 [cigarWord 4 .BAM_CMATCH]) (exRef 10) rfl rfl rfl rfl (by decide)
      (by decide)).2 (by decide)⟩

/-- C8, as stated, fails: for two mates that start at the same position,
exchanging `read1` and `read2` exchanges which of them is walked against the
left matrix set, and the pair score changes. -/
theorem logLikelihoodReadPair_swap_equal_start :
    (leftRead (exReadG 0) (exRead 0 1 [cigarWord 1 .BAM_CMATCH])).seq 0 = 1 ∧
      (leftRead (exRead 0 1 [cigarWord 1 .BAM_CMATCH]) (exReadG 0)).seq 0 = 4 ∧
      logLikelihoodReadPair exHeader (exModel 4)
          ⟨some (exReadG 0), some (exRead 0 1 [cigarWord 1 .BAM_CMATCH]), .Paired⟩ (exRef 10) ≠
        logLikelihoodReadPair exHeader (exModel 4)
          ⟨some (exRead 0 1 [cigarWord 1 .BAM_CMATCH]), some (exReadG 0), .Paired⟩
          (exRef 10) := by
  decide

theorem leftRead_swap (read1 read2 : BamSeq) (h : read1.pos ≠ read2.pos) :
    leftRead read2 read1 = leftRead read1 read2 := by
  unfold leftRead
  rcases lt_or_gt_of_ne h with hlt | hgt
  · rw [if_pos hlt, if_neg (not_lt.mpr (le_of_lt hlt))]
  · rw [if_pos hgt, if_neg (not_lt.mpr (le_of_lt hgt))]

theorem rightRead_swap (read1 read2 : BamSeq) (h : read1.pos ≠ read2.pos) :
    rightRead read2 read1 = rightRead read1 read2 := by
  unfold rightRead
  rcases lt_or_gt_of_ne h with hlt | hgt
  · rw [if_pos hlt, if_neg (not_lt.mpr (le_of_lt hlt))]
  · rw [if_pos hgt, if_neg (not_lt.mpr (le_of_lt hgt))]

/-- C8, amended: for a paired hit whose mates start at different positions,
exchanging `read1` and `read2` changes neither the read walked against the
left set nor the one walked against the right set, nor the pair score, nor the
model that training leaves behind, nor the cells each training walk
increments. -/
theorem readPair_swap_distinct_start {α : Type} [AddZeroClass α] [DecidableEq α]
    (H : Header α) (m : AlignmentModel α) (read1 read2 : BamSeq) (st : OrphanStatus)
    (ref : Transcript) (p mass : α) (h : read1.pos ≠ read2.pos) :
    leftRead read2 read1 = leftRead read1 read2 ∧
      rightRead read2 read1 = rightRead read1 read2 ∧
      logLikelihoodReadPair H m ⟨some read2, some read1, .Paired⟩ ref =
        logLikelihoodReadPair H m ⟨some read1, some read2, .Paired⟩ ref ∧
      updateReadPair H m ⟨some read2, some read1, st⟩ ref p mass =
        updateReadPair H m ⟨some read1, some read2, st⟩ ref p mass ∧
      (update H m.readBins_ (leftRead read2 read1) ref p mass m.transitionProbsLeft_).steps =
        (update H m.readBins_ (leftRead read1 read2) ref p mass m.transitionProbsLeft_).steps ∧
      (update H m.readBins_ (rightRead read2 read1) ref p mass m.transitionProbsRight_).steps =
        (update H m.readBins_ (rightRead read1 read2) ref p mass
          m.transitionProbsRight_).steps := by
  have hl := leftRead_swap read1 read2 h
  have hr := rightRead_swap read1 read2 h
  refine ⟨hl, hr, ?_, ?_, ?_, ?_⟩
  · simp [logLikelihoodReadPair, hl, hr, ReadPair.isPaired]
  · simp only [updateReadPair, hl, hr]
  · rw [hl]
  · rw [hr]

theorem readPair_swap_distinct_start_witness :
    (exReadG 3).pos ≠ (exRead 0 4 [cigarWord 4 .BAM_CMATCH]).pos ∧
      logLikelihoodReadPair exHeader (exModel 4)
          ⟨some (exRead 0 4 [cigarWord 4 .BAM_CMATCH]), some (exReadG 3), .Paired⟩ (exRef 10) =
        logLikelihoodReadPair exHeader (exModel 4)
          ⟨some (exReadG 3), some (exRead 0 4 [cigarWord 4 .BAM_CMATCH]), .Paired⟩ (exRef 10) :=
  ⟨by decide,
    (readPair_swap_distinct_start exHeader (exModel 4) (exReadG 3)
      (exRead 0 4 [cigarWord 4 .BAM_CMATCH]) .Paired (exRef 10) 0 0 (by decide)).2.2.1⟩

/-- C9, as stated, fails: an `UnpairedRead` hit that is not flagged as a left
orphan is walked against the left matrix set, and its score differs from the
walk against the right set. -/
theorem logLikelihoodUnpairedRead_not_right :
    (⟨some (exReadG 0), false⟩ : UnpairedRead).isLeftOrphan = false ∧
      logLikelihoodUnpairedRead exHeader (exModel 4) ⟨some (exReadG 0), false⟩ (exRef 10) =
        some (logLikelihood exHeader 4 (exReadG 0) (exRef 10) exLeft) ∧
      logLikelihoodUnpairedRead exHeader (exModel 4) ⟨some (exReadG 0), false⟩ (exRef 10) ≠
        some (logLikelihood exHeader 4 (exReadG 0) (exRef 10) exRight) := by
  decide

/-- C9, amended: on an enabled model, an unpaired `ReadPair` hit is walked
against the left matrix set if it is flagged as a left orphan and against the
right set otherwise; an `UnpairedRead` hit whose read is not longer than the
maximum expected length is walked against the left set whatever its flag. -/
theorem logLikelihood_unpaired_routing {α : Type} [AddZeroClass α] (H : Header α)
    (m : AlignmentModel α) (read : BamSeq) (ref : Transcript) (hm : m.isEnabled_ = true) :
    (∀ hit : ReadPair, hit.isPaired = false → hit.read1 = some read →
        logLikelihoodReadPair H m hit ref =
          some (logLikelihood H m.readBins_ read ref
            (if hit.isLeftOrphan then m.transitionProbsLeft_ else m.transitionProbsRight_))) ∧
      (∀ hit : UnpairedRead, hit.read = some read → read.len ≤ m.maxExpectedLen_ →
        logLikelihoodUnpairedRead H m hit ref =
          some (logLikelihood H m.readBins_ read ref m.transitionProbsLeft_)) := by
  constructor
  · intro hit hp h1
    by_cases ho : hit.isLeftOrphan = true
    · simp [logLikelihoodReadPair, hm, hp, h1, ho]
    · simp [logLikelihoodReadPair, hm, hp, h1, ho]
  · intro hit h1 hl
    have hgt : ¬ m.maxExpectedLen_ < read.len := not_lt.mpr hl
    simp [logLikelihoodUnpairedRead, hm, h1, hgt, LOG_1]

theorem logLikelihood_unpaired_routing_witness :
    (exModel 4).isEnabled_ = true ∧
      (⟨some (exReadG 0), none, .RightOrphan⟩ : ReadPair).isPaired = false ∧
      logLikelihoodReadPair exHeader (exModel 4) ⟨some (exReadG 0), none, .RightOrphan⟩
          (exRef 10) =
        some (logLikelihood exHeader 4 (exReadG 0) (exRef 10) exRight) ∧
      (exReadG 0).len ≤ (exModel 4).maxExpectedLen_ ∧
      logLikelihoodUnpairedRead exHeader (exModel 4) ⟨some (exReadG 0), true⟩ (exRef 10) =
        some (logLikelihood exHeader 4 (exReadG 0) (exRef 10) exLeft) :=
  ⟨rfl, rfl,
    (logLikelihood_unpaired_routing exHeader (exModel 4) (exReadG 0) (exRef 10) rfl).1
      ⟨some (exReadG 0), none, .RightOrphan⟩ rfl rfl,
    by decide,
    (logLikelihood_unpaired_routing exHeader (exModel 4) (exReadG 0) (exRef 10) rfl).2
      ⟨some (exReadG 0), true⟩ rfl (by decide)⟩

/-! ## The training walk moves its cursors as the scoring walk does -/

theorem updateStep_cursor {α : Type} [Add α] (H : Header α) (readBins : Nat) (read : BamSeq)
    (ref : Transcript) (transitionProbs : MatrixSet α) (p mass : α) (op : cigar_op)
    (s : ScoreVars α) (t : TrainVars α) (h : t.cursor = s.cursor) :
    (updateStep H readBins read ref p mass op t).cursor =
      (logLikelihoodStep H readBins read ref transitionProbs op s).cursor := by
  simp only [TrainVars.cursor, ScoreVars.cursor, Cursor.mk.injEq] at h
  obtain ⟨h1, h2, h3, h4, h5, h6, h7, h8⟩ := h
  unfold updateStep logLikelihoodStep
  by_cases hs : BAM_CONSUME_SEQ H op = true <;> by_cases hr : BAM_CONSUME_REF H op = true <;>
    simp [TrainVars.cursor, ScoreVars.cursor, hs, hr, h1, h2, h3, h4, h5, h6, h7, h8]

theorem updateRun_cursor {α : Type} [Add α] (H : Header α) (readBins : Nat) (read : BamSeq)
    (ref : Transcript) (transitionProbs : MatrixSet α) (p mass : α) (op : cigar_op)
    (opLen : Nat) :
    ∀ (s : ScoreVars α) (t : TrainVars α), t.cursor = s.cursor →
      (updateRun H readBins read ref p mass op opLen t).cursor =
        (logLikelihoodRun H readBins read ref transitionProbs op opLen s).cursor := by
  induction opLen with
  | zero => intro s t h; exact h
  | succ n ih =>
    intro s t h
    exact ih _ _ (updateStep_cursor H readBins read ref transitionProbs p mass op s t h)

theorem updateOps_cursor {α : Type} [Add α] (H : Header α) (readBins : Nat) (read : BamSeq)
    (ref : Transcript) (transitionProbs : MatrixSet α) (p mass : α) (cigar : List Nat) :
    ∀ (s : ScoreVars α) (t : TrainVars α), t.cursor = s.cursor →
      (updateOps H readBins read ref p mass cigar t).cursor =
        (logLikelihoodOps H readBins read ref transitionProbs cigar s).cursor := by
  induction cigar with
  | nil => intro s t h; exact h
  | cons w cigar ih =>
    intro s t h
    unfold updateOps logLikelihoodOps
    apply ih
    apply updateRun_cursor
    simp only [TrainVars.cursor, ScoreVars.cursor, Cursor.mk.injEq] at h
    obtain ⟨h1, h2, h3, h4, h5, h6, h7, h8⟩ := h
    simp [TrainVars.cursor, ScoreVars.cursor, h1, h2, h3, h4, h5, h6, h7, h8]

theorem trainInit_cursor {α : Type} (H : Header α) (read : BamSeq)
    (transitionProbs : MatrixSet α) (v : α) :
    (trainInit H read transitionProbs).cursor = (scoreInit H read v).cursor := rfl

/-! ## One unit step of the scoring walk, field by field -/

section StepFields

variable {α : Type} [Add α] (H : Header α) (readBins : Nat) (read : BamSeq) (ref : Transcript)
  (transitionProbs : MatrixSet α) (op : cigar_op) (s : ScoreVars α)

theorem logLikelihoodStep_steps :
    (logLikelihoodStep H readBins read ref transitionProbs op s).steps =
      s.steps ++ [⟨op, s.readIdx, s.uTranscriptIdx, s.readPosBin, s.prevStateIdx,
        (switchOp H op s.curRefBase s.curReadBase).1 * H.numStates +
          (switchOp H op s.curRefBase s.curReadBase).2⟩] := by
  unfold logLikelihoodStep
  by_cases hs : BAM_CONSUME_SEQ H op = true <;> by_cases hr : BAM_CONSUME_REF H op = true <;>
    simp [hs, hr]

theorem logLikelihoodStep_logLike :
    (logLikelihoodStep H readBins read ref transitionProbs op s).logLike =
      s.logLike + transitionProbs s.readPosBin s.prevStateIdx
        ((switchOp H op s.curRefBase s.curReadBase).1 * H.numStates +
          (switchOp H op s.curRefBase s.curReadBase).2) := by
  unfold logLikelihoodStep
  by_cases hs : BAM_CONSUME_SEQ H op = true <;> by_cases hr : BAM_CONSUME_REF H op = true <;>
    simp [hs, hr]

theorem logLikelihoodStep_prevStateIdx :
    (logLikelihoodStep H readBins read ref transitionProbs op s).prevStateIdx =
      (switchOp H op s.curRefBase s.curReadBase).1 * H.numStates +
        (switchOp H op s.curRefBase s.curReadBase).2 := by
  unfold logLikelihoodStep
  by_cases hs : BAM_CONSUME_SEQ H op = true <;> by_cases hr : BAM_CONSUME_REF H op = true <;>
    simp [hs, hr]

theorem logLikelihoodStep_readIdx :
    (logLikelihoodStep H readBins read ref transitionProbs op s).readIdx =
      if BAM_CONSUME_SEQ H op then s.readIdx + 1 else s.readIdx := by
  unfold logLikelihoodStep
  by_cases hs : BAM_CONSUME_SEQ H op = true <;> by_cases hr : BAM_CONSUME_REF H op = true <;>
    simp [hs, hr]

theorem logLikelihoodStep_readPosBin :
    (logLikelihoodStep H readBins read ref transitionProbs op s).readPosBin =
      if BAM_CONSUME_SEQ H op then posBin readBins read.len (s.readIdx + 1)
      else s.readPosBin := by
  unfold logLikelihoodStep
  by_cases hs : BAM_CONSUME_SEQ H op = true <;> by_cases hr : BAM_CONSUME_REF H op = true <;>
    simp [hs, hr]

theorem logLikelihoodStep_curReadBase :
    (logLikelihoodStep H readBins read ref transitionProbs op s).curReadBase =
      if BAM_CONSUME_SEQ H op then readCategory H read (s.readIdx + 1)
      else (switchOp H op s.curRefBase s.curReadBase).2 := by
  unfold logLikelihoodStep
  by_cases hs : BAM_CONSUME_SEQ H op = true <;> by_cases hr : BAM_CONSUME_REF H op = true <;>
    simp [hs, hr, readCategory]

theorem logLikelihoodStep_uTranscriptIdx :
    (logLikelihoodStep H readBins read ref transitionProbs op s).uTranscriptIdx =
      if BAM_CONSUME_REF H op then s.uTranscriptIdx + 1 else s.uTranscriptIdx := by
  unfold logLikelihoodStep
  by_cases hs : BAM_CONSUME_SEQ H op = true <;> by_cases hr : BAM_CONSUME_REF H op = true <;>
    simp [hs, hr]

theorem logLikelihoodStep_curRefBase :
    (logLikelihoodStep H readBins read ref transitionProbs op s).curRefBase =
      if BAM_CONSUME_REF H op then refCategory H ref (s.uTranscriptIdx + 1)
      else (switchOp H op s.curRefBase s.curReadBase).1 := by
  unfold logLikelihoodStep
  by_cases hs : BAM_CONSUME_SEQ H op = true <;> by_cases hr : BAM_CONSUME_REF H op = true <;>
    simp [hs, hr, refCategory]

end StepFields

/-! ## The state of every unit step -/

theorem switchOp_eq_encoder {α : Type} (H : Header α) (op : cigar_op) (r q : Nat) :
    switchOp H op r q = encoderCategories H op r q := by
  cases op <;> simp [switchOp, encoderCategories]

theorem encoderCategories_step {α : Type} (H : Header α) (op : cigar_op) (r q r1 q1 : Nat) :
    encoderCategories H op
        (if BAM_CONSUME_REF H op then r1 else (encoderCategories H op r q).1)
        (if BAM_CONSUME_SEQ H op then q1 else (encoderCategories H op r q).2) =
      encoderCategories H op (if BAM_CONSUME_REF H op then r1 else r)
        (if BAM_CONSUME_SEQ H op then q1 else q) := by
  cases op
  case BAM_UNKNOWN =>
    cases hsu : H.consumeSeqUnknown <;> cases hru : H.consumeRefUnknown <;>
      simp [BAM_CONSUME_SEQ, BAM_CONSUME_REF, encoderCategories, hsu, hru]
  all_goals simp [BAM_CONSUME_SEQ, BAM_CONSUME_REF, encoderCategories]

/-- The loop invariant of the inner loop: the encoder gives the same pair on
the two category variables as on the categories decoded at the cursors. -/
theorem logLikelihoodStep_encoded {α : Type} [Add α] (H : Header α) (readBins : Nat)
    (read : BamSeq) (ref : Transcript) (transitionProbs : MatrixSet α) (op : cigar_op)
    (s : ScoreVars α)
    (hinv : encoderCategories H op s.curRefBase s.curReadBase =
      encoderCategories H op (refCategory H ref s.uTranscriptIdx)
        (readCategory H read s.readIdx))
    (hsteps : ∀ st ∈ s.steps, st.cur =
      encoderState H st.op (refCategory H ref st.refIdx) (readCategory H read st.readIdx)) :
    (encoderCategories H op
        (logLikelihoodStep H readBins read ref transitionProbs op s).curRefBase
        (logLikelihoodStep H readBins read ref transitionProbs op s).curReadBase =
      encoderCategories H op
        (refCategory H ref
          (logLikelihoodStep H readBins read ref transitionProbs op s).uTranscriptIdx)
        (readCategory H read
          (logLikelihoodStep H readBins read ref transitionProbs op s).readIdx)) ∧
    (∀ st ∈ (logLikelihoodStep H readBins read ref transitionProbs op s).steps, st.cur =
      encoderState H st.op (refCategory H ref st.refIdx) (readCategory H read st.readIdx)) := by
  constructor
  · rw [logLikelihoodStep_curRefBase, logLikelihoodStep_curReadBase,
      logLikelihoodStep_uTranscriptIdx, logLikelihoodStep_readIdx, switchOp_eq_encoder,
      hinv, encoderCategories_step]
    by_cases hs : BAM_CONSUME_SEQ H op = true <;> by_cases hr : BAM_CONSUME_REF H op = true <;>
      simp [hs, hr]
  · intro st hst
    rw [logLikelihoodStep_steps, List.mem_append] at hst
    rcases hst with hst | hst
    · exact hsteps st hst
    · rw [List.mem_singleton] at hst
      subst hst
      simp only [encoderState]
      rw [switchOp_eq_encoder, hinv]

theorem logLikelihoodRun_encoded {α : Type} [Add α] (H : Header α) (readBins : Nat)
    (read : BamSeq) (ref : Transcript) (transitionProbs : MatrixSet α) (op : cigar_op)
    (opLen : Nat) :
    ∀ s : ScoreVars α,
      encoderCategories H op s.curRefBase s.curReadBase =
        encoderCategories H op (refCategory H ref s.uTranscriptIdx)
          (readCategory H read s.readIdx) →
      (∀ st ∈ s.steps, st.cur =
        encoderState H st.op (refCategory H ref st.refIdx) (readCategory H read st.readIdx)) →
      ∀ st ∈ (logLikelihoodRun H readBins read ref transitionProbs op opLen s).steps, st.cur =
        encoderState H st.op (refCategory H ref st.refIdx) (readCategory H read st.readIdx) := by
  induction opLen with
  | zero => intro s _ hsteps; exact hsteps
  | succ n ih =>
    intro s hinv hsteps
    have h := logLikelihoodStep_encoded H readBins read ref transitionProbs op s hinv hsteps
    exact ih _ h.1 h.2

theorem logLikelihoodOps_encoded {α : Type} [Add α] (H : Header α) (readBins : Nat)
    (read : BamSeq) (ref : Transcript) (transitionProbs : MatrixSet α) (cigar : List Nat) :
    ∀ s : ScoreVars α,
      (∀ st ∈ s.steps, st.cur =
        encoderState H st.op (refCategory H ref st.refIdx) (readCategory H read st.readIdx)) →
      ∀ st ∈ (logLikelihoodOps H readBins read ref transitionProbs cigar s).steps, st.cur =
        encoderState H st.op (refCategory H ref st.refIdx) (readCategory H read st.readIdx) := by
  induction cigar with
  | nil => intro s hsteps; exact hsteps
  | cons w cigar ih =>
    intro s hsteps
    unfold logLikelihoodOps
    apply ih
    apply logLikelihoodRun_encoded
    · rfl
    · exact hsteps

theorem logLikelihoodVars_steps_nil_or {α : Type} [AddZeroClass α] (H : Header α)
    (readBins : Nat) (read : BamSeq) (ref : Transcript) (transitionProbs : MatrixSet α) :
    (logLikelihoodVars H readBins read ref transitionProbs).steps = [] ∨
      ∃ cigar, read.cigar = some cigar ∧
        logLikelihoodVars H readBins read ref transitionProbs =
          logLikelihoodOps H readBins read ref transitionProbs cigar
            (scoreInit H read (LOG_1 : α)) := by
  unfold logLikelihoodVars
  split
  · exact Or.inl rfl
  · split
    · exact Or.inl rfl
    · exact Or.inl rfl
    · next w cigar hc => exact Or.inr ⟨w :: cigar, hc, rfl⟩

theorem update_eq_updateOps {α : Type} [Add α] (H : Header α) (readBins : Nat)
    (read : BamSeq) (ref : Transcript) (p mass : α) (transitionProbs : MatrixSet α) :
    update H readBins read ref p mass transitionProbs =
      updateOps H readBins read ref p mass (read.cigar.getD [])
        (trainInit H read transitionProbs) := by
  unfold update
  split <;> simp_all [updateOps]

theorem update_steps_eq {α : Type} [Add α] (H : Header α) (readBins : Nat)
    (read : BamSeq) (ref : Transcript) (p mass : α) (transitionProbs : MatrixSet α) (v : α) :
    (update H readBins read ref p mass transitionProbs).steps =
      (logLikelihoodOps H readBins read ref transitionProbs (read.cigar.getD [])
        (scoreInit H read v)).steps := by
  rw [update_eq_updateOps]
  have h := updateOps_cursor H readBins read ref transitionProbs p mass (read.cigar.getD [])
    (scoreInit H read v) (trainInit H read transitionProbs)
    (trainInit_cursor H read transitionProbs v)
  exact congrArg Cursor.steps h

/-- C2: at every unit step of the scoring walk and of the training walk the
composite state used is `refCategory * numStates + readCategory`, for the
categories decoded at the step's reference and read cursors with the
overrides of the encoder (insertion: reference is the gap symbol; deletion:
read is the gap symbol; reference skip: read is the skip symbol; soft clip:
reference is the soft-clip symbol; hard clip and pad: both are the clip or
pad symbol); the three match-type operations use the decoded categories, so
they give the same state for the same bases. -/
theorem walk_state_encoded {α : Type} [AddZeroClass α] (H : Header α) (readBins : Nat)
    (read : BamSeq) (ref : Transcript) (transitionProbs : MatrixSet α) (p mass : α) :
    (∀ st ∈ (logLikelihoodVars H readBins read ref transitionProbs).steps,
        st.cur = encoderState H st.op (refCategory H ref st.refIdx)
          (readCategory H read st.readIdx)) ∧
      (∀ st ∈ (update H readBins read ref p mass transitionProbs).steps,
        st.cur = encoderState H st.op (refCategory H ref st.refIdx)
          (readCategory H read st.readIdx)) ∧
      (∀ refCat readCat : Nat,
        encoderState H .BAM_CMATCH refCat readCat = refCat * H.numStates + readCat ∧
        encoderState H .BAM_CBASE_MATCH refCat readCat = refCat * H.numStates + readCat ∧
        encoderState H .BAM_CBASE_MISMATCH refCat readCat = refCat * H.numStates + readCat ∧
        encoderState H .BAM_CINS refCat readCat = H.ALN_DASH * H.numStates + readCat ∧
        encoderState H .BAM_CDEL refCat readCat = refCat * H.numStates + H.ALN_DASH ∧
        encoderState H .BAM_CREF_SKIP refCat readCat = refCat * H.numStates + H.ALN_REF_SKIP ∧
        encoderState H .BAM_CSOFT_CLIP refCat readCat =
          H.ALN_SOFT_CLIP * H.numStates + readCat ∧
        encoderState H .BAM_CHARD_CLIP refCat readCat =
          H.ALN_HARD_CLIP * H.numStates + H.ALN_HARD_CLIP ∧
        encoderState H .BAM_CPAD refCat readCat = H.ALN_PAD * H.numStates + H.ALN_PAD) := by
  refine ⟨?_, ?_, ?_⟩
  · rcases logLikelihoodVars_steps_nil_or H readBins read ref transitionProbs with h | h
    · intro st hst
      rw [h] at hst
      exact absurd hst (List.not_mem_nil st)
    · obtain ⟨cigar, _, hv⟩ := h
      rw [hv]
      apply logLikelihoodOps_encoded
      intro st hst
      exact absurd hst (List.not_mem_nil st)
  · rw [update_steps_eq H readBins read ref p mass transitionProbs (LOG_1 : α)]
    apply logLikelihoodOps_encoded
    intro st hst
    exact absurd hst (List.not_mem_nil st)
  · intro refCat readCat
    simp [encoderState, encoderCategories]

/-! ## An all-match read -/

theorem posBin_zero (readBins seqLen : Nat) : posBin readBins seqLen 0 = 0 := by
  unfold posBin
  by_cases h : seqLen = 0
  · simp [h]
  · simp [h, roundToDouble]

theorem logLikelihoodRun_match {α : Type} [Add α] (H : Header α) (readBins : Nat)
    (read : BamSeq) (ref : Transcript) (transitionProbs : MatrixSet α) (opLen : Nat) :
    ∀ (s : ScoreVars α) (j : Nat), s.readIdx = j → s.uTranscriptIdx = j →
      s.readPosBin = posBin readBins read.len j →
      s.prevStateIdx = matchPrevState H read ref j →
      s.curReadBase = readCategory H read j → s.curRefBase = refCategory H ref j →
      (logLikelihoodRun H readBins read ref transitionProbs .BAM_CMATCH opLen s).logLike =
        (List.range' j opLen).foldl
          (fun acc i => acc + transitionProbs (posBin readBins read.len i)
            (matchPrevState H read ref i) (matchState H read ref i)) s.logLike := by
  induction opLen with
  | zero => intro s j _ _ _ _ _ _; rfl
  | succ n ih =>
    intro s j h1 h2 h3 h4 h5 h6
    unfold logLikelihoodRun
    rw [ih _ (j + 1)]
    · rw [List.range'_succ, List.foldl_cons, logLikelihoodStep_logLike]
      simp [switchOp, h3, h4, h5, h6, matchState]
    · rw [logLikelihoodStep_readIdx]; simp [BAM_CONSUME_SEQ, h1]
    · rw [logLikelihoodStep_uTranscriptIdx]; simp [BAM_CONSUME_REF, h2]
    · rw [logLikelihoodStep_readPosBin]; simp [BAM_CONSUME_SEQ, h1]
    · rw [logLikelihoodStep_prevStateIdx]; simp [switchOp, h5, h6, matchPrevState, matchState]
    · rw [logLikelihoodStep_curReadBase]; simp [BAM_CONSUME_SEQ, h1]
    · rw [logLikelihoodStep_curRefBase]; simp [BAM_CONSUME_REF, h2]

/-- C1, amended: on an enabled model, for a read of length `L ≥ 1` (not above
the maximum expected length) at start offset `0` whose edit script is the
single match operation of run length `L`, against a reference of length at
least `L`, the score of the read as an `UnpairedRead` hit is the sum, taken in
order from `0`, over `i = 0 .. L-1` of the left matrix set's cell
`M[bin(i)](s(i-1), s(i))`, where `s(-1)` is the start state,
`s(i) = refCategory(i) * numStates + readCategory(i)` and `bin(i)` is the
truncated binary64 product `i * (binCount / L)` that the code computes. -/
theorem logLikelihoodUnpairedRead_all_match {α : Type} [AddZeroClass α] (H : Header α)
    (m : AlignmentModel α) (hit : UnpairedRead) (read : BamSeq) (ref : Transcript) (L : Nat)
    (hm : m.isEnabled_ = true) (hhit : hit.read = some read) (hL : 1 ≤ L)
    (hlen : read.len = L) (hmax : L ≤ m.maxExpectedLen_) (hpos : read.pos = 0)
    (hcigar : read.cigar = some [cigarWord L .BAM_CMATCH]) (href : L ≤ ref.RefLength) :
    logLikelihoodUnpairedRead H m hit ref =
      some ((List.range L).foldl
        (fun acc i => acc + m.transitionProbsLeft_ (posBin m.readBins_ L i)
          (matchPrevState H read ref i) (matchState H read ref i)) 0) := by
  have hgt : ¬ m.maxExpectedLen_ < read.len := by rw [hlen]; exact not_lt.mpr hmax
  have hu : ¬ ref.RefLength ≤ (scoreInit H read (LOG_1 : α)).uTranscriptIdx := by
    rw [scoreInit_uTranscriptIdx, hpos]
    simp
    omega
  simp only [logLikelihoodUnpairedRead, hm, hhit, hgt, LOG_1, zero_add, Bool.not_true,
    Bool.false_eq_true, if_false]
  unfold logLikelihood logLikelihoodVars
  rw [if_neg hu, hcigar]
  simp only [logLikelihoodOps, cigarWord_opLen, cigarWord_op]
  rw [logLikelihoodRun_match H m.readBins_ read ref m.transitionProbsLeft_ L _ 0]
  · rw [List.range_eq_range', hlen]
    simp [scoreInit, LOG_1]
  · simp [scoreInit, hpos]
  · simp [scoreInit, hpos]
  · simp [scoreInit, posBin_zero]
  · simp [scoreInit, matchPrevState]
  · simp [scoreInit, hpos, readCategory]
  · simp [scoreInit, hpos, refCategory]

set_option maxRecDepth 1000000

theorem logLikelihoodUnpairedRead_all_match_witness :
    (exModel 4).isEnabled_ = true ∧
      1 ≤ 10 ∧
      10 ≤ (exModel 4).maxExpectedLen_ ∧
      10 ≤ (exRef 10).RefLength ∧
      logLikelihoodUnpairedRead exHeader (exModel 4)
          ⟨some (exRead 0 10 [cigarWord 10 .BAM_CMATCH]), false⟩ (exRef 10) =
        some ((List.range 10).foldl
          (fun acc i => acc + (exModel 4).transitionProbsLeft_ (posBin (exModel 4).readBins_ 10 i)
            (matchPrevState exHeader (exRead 0 10 [cigarWord 10 .BAM_CMATCH]) (exRef 10) i)
            (matchState exHeader (exRead 0 10 [cigarWord 10 .BAM_CMATCH]) (exRef 10) i)) 0) :=
  ⟨rfl, by decide, by decide, by decide,
    logLikelihoodUnpairedRead_all_match exHeader (exModel 4)
      ⟨some (exRead 0 10 [cigarWord 10 .BAM_CMATCH]), false⟩
      (exRead 0 10 [cigarWord 10 .BAM_CMATCH]) (exRef 10) 10 rfl rfl (by decide) rfl
      (by decide) rfl rfl (by decide)⟩

/-- C1, as stated, fails: with `4` bins, the all-match read of length `98` at
start offset `0` uses bin `1` at read index `49`, where
`floor(49 * 4 / 98) = 2` (in binary64 `4 / 98` rounds down and `49` times it
rounds to the double just below `2`), so its score is not the sum with
`bin(i) = floor(i * binCount / L)`. -/
theorem logLikelihoodUnpairedRead_all_match_not_floor :
    posBin 4 98 49 = 1 ∧ 49 * 4 / 98 = 2 ∧
      logLikelihoodUnpairedRead exHeader (exModel 4)
          ⟨some (exRead 0 98 [cigarWord 98 .BAM_CMATCH]), true⟩ (exRef 98) = some (-243) ∧
      (List.range 98).foldl
          (fun acc i => acc + (exModel 4).transitionProbsLeft_ (i * 4 / 98)
            (matchPrevState exHeader (exRead 0 98 [cigarWord 98 .BAM_CMATCH]) (exRef 98) i)
            (matchState exHeader (exRead 0 98 [cigarWord 98 .BAM_CMATCH]) (exRef 98) i)) 0
        = -244 := by
  decide

/-! ## Walks that leave the read -/

/-- C3, evaluated where it fails: on a model with `4` bins, whose matrix sets
have the entries `0 .. 3`, the read of length `4` with the edit script `4M1H`
makes both walks use bin `4` at the hard-clip step; so does, from its third
step on, the read `4M` that starts `2` bases before the reference. -/
theorem walk_bin_reaches_readBins :
    (exModel 4).readBins_ = 4 ∧
      (logLikelihoodVars exHeader 4
          (exRead 0 4 [cigarWord 4 .BAM_CMATCH, cigarWord 1 .BAM_CHARD_CLIP]) (exRef 10)
          exLeft).steps.map Step.bin = [0, 1, 2, 3, 4] ∧
      (update exHeader 4 (exRead 0 4 [cigarWord 4 .BAM_CMATCH, cigarWord 1 .BAM_CHARD_CLIP])
          (exRef 10) 0 (-1) exLeft).steps.map Step.bin = [0, 1, 2, 3, 4] ∧
      (logLikelihoodVars exHeader 4 (exRead (-2) 4 [cigarWord 4 .BAM_CMATCH]) (exRef 10)
          exLeft).steps.map Step.bin = [0, 3, 4, 5] ∧
      (update exHeader 4 (exRead (-2) 4 [cigarWord 4 .BAM_CMATCH]) (exRef 10) 0 (-1)
          exLeft).steps.map Step.bin = [0, 3, 4, 5] := by
  decide

/-- C6, evaluated where it fails: the read of length `4` with the edit script
`4M` that starts `2` bases before the reference is walked from read cursor `2`
and reference cursor `0`, and the walk performs `4` read-consuming unit steps,
at the read cursors `2, 3, 4, 5`, as many as the walk of the same read at
start offset `0` and not `2` fewer. -/
theorem logLikelihood_negative_start_same_steps :
    (logLikelihoodVars exHeader 4 (exRead (-2) 4 [cigarWord 4 .BAM_CMATCH]) (exRef 10)
          exLeft).steps.map (fun st => (st.readIdx, st.refIdx)) =
        [(2, 0), (3, 1), (4, 2), (5, 3)] ∧
      (logLikelihoodVars exHeader 4 (exRead 0 4 [cigarWord 4 .BAM_CMATCH]) (exRef 10)
          exLeft).steps.map (fun st => (st.readIdx, st.refIdx)) =
        [(0, 0), (1, 1), (2, 2), (3, 3)] ∧
      ((logLikelihoodVars exHeader 4 (exRead (-2) 4 [cigarWord 4 .BAM_CMATCH]) (exRef 10)
          exLeft).steps.filter (fun st => BAM_CONSUME_SEQ exHeader st.op)).length = 4 ∧
      ((logLikelihoodVars exHeader 4 (exRead 0 4 [cigarWord 4 .BAM_CMATCH]) (exRef 10)
          exLeft).steps.filter (fun st => BAM_CONSUME_SEQ exHeader st.op)).length = 4 := by
  decide

/-! ## The traces account for what the walks do -/

theorem updateStep_steps {α : Type} [Add α] (H : Header α) (readBins : Nat) (read : BamSeq)
    (ref : Transcript) (p mass : α) (op : cigar_op) (t : TrainVars α) :
    (updateStep H readBins read ref p mass op t).steps =
      t.steps ++ [⟨op, t.readIdx, t.uTranscriptIdx, t.readPosBin, t.prevStateIdx,
        (switchOp H op t.curRefBase t.curReadBase).1 * H.numStates +
          (switchOp H op t.curRefBase t.curReadBase).2⟩] := by
  unfold updateStep
  by_cases hs : BAM_CONSUME_SEQ H op = true <;> by_cases hr : BAM_CONSUME_REF H op = true <;>
    simp [hs, hr]

theorem updateStep_transitionProbs {α : Type} [Add α] (H : Header α) (readBins : Nat)
    (read : BamSeq) (ref : Transcript) (p mass : α) (op : cigar_op) (t : TrainVars α) :
    (updateStep H readBins read ref p mass op t).transitionProbs =
      t.transitionProbs.incrementAt t.readPosBin t.prevStateIdx
        ((switchOp H op t.curRefBase t.curReadBase).1 * H.numStates +
          (switchOp H op t.curRefBase t.curReadBase).2) (mass + p) := by
  unfold updateStep
  by_cases hs : BAM_CONSUME_SEQ H op = true <;> by_cases hr : BAM_CONSUME_REF H op = true <;>
    simp [hs, hr]

theorem updateStep_prevStateIdx {α : Type} [Add α] (H : Header α) (readBins : Nat)
    (read : BamSeq) (ref : Transcript) (p mass : α) (op : cigar_op) (t : TrainVars α) :
    (updateStep H readBins read ref p mass op t).prevStateIdx =
      (switchOp H op t.curRefBase t.curReadBase).1 * H.numStates +
        (switchOp H op t.curRefBase t.curReadBase).2 := by
  unfold updateStep
  by_cases hs : BAM_CONSUME_SEQ H op = true <;> by_cases hr : BAM_CONSUME_REF H op = true <;>
    simp [hs, hr]

theorem logLikelihoodRun_fold {α : Type} [Add α] (H : Header α) (readBins : Nat)
    (read : BamSeq) (ref : Transcript) (transitionProbs : MatrixSet α) (op : cigar_op) (v : α)
    (opLen : Nat) :
    ∀ s : ScoreVars α,
      s.logLike = s.steps.foldl (fun acc st => acc + transitionProbs st.bin st.prev st.cur) v →
      (logLikelihoodRun H readBins read ref transitionProbs op opLen s).logLike =
        (logLikelihoodRun H readBins read ref transitionProbs op opLen s).steps.foldl
          (fun acc st => acc + transitionProbs st.bin st.prev st.cur) v := by
  induction opLen with
  | zero => intro s h; exact h
  | succ n ih =>
    intro s h
    unfold logLikelihoodRun
    apply ih
    rw [logLikelihoodStep_steps, logLikelihoodStep_logLike, List.foldl_append, ← h]
    rfl

theorem logLikelihoodOps_fold {α : Type} [Add α] (H : Header α) (readBins : Nat)
    (read : BamSeq) (ref : Transcript) (transitionProbs : MatrixSet α) (v : α)
    (cigar : List Nat) :
    ∀ s : ScoreVars α,
      s.logLike = s.steps.foldl (fun acc st => acc + transitionProbs st.bin st.prev st.cur) v →
      (logLikelihoodOps H readBins read ref transitionProbs cigar s).logLike =
        (logLikelihoodOps H readBins read ref transitionProbs cigar s).steps.foldl
          (fun acc st => acc + transitionProbs st.bin st.prev st.cur) v := by
  induction cigar with
  | nil => intro s h; exact h
  | cons w cigar ih =>
    intro s h
    unfold logLikelihoodOps
    apply ih
    apply logLikelihoodRun_fold
    exact h

theorem updateRun_fold {α : Type} [Add α] (H : Header α) (readBins : Nat)
    (read : BamSeq) (ref : Transcript) (p mass : α) (op : cigar_op) (tp : MatrixSet α)
    (opLen : Nat) :
    ∀ t : TrainVars α,
      t.transitionProbs =
        t.steps.foldl (fun ms st => ms.incrementAt st.bin st.prev st.cur (mass + p)) tp →
      (updateRun H readBins read ref p mass op opLen t).transitionProbs =
        (updateRun H readBins read ref p mass op opLen t).steps.foldl
          (fun ms st => ms.incrementAt st.bin st.prev st.cur (mass + p)) tp := by
  induction opLen with
  | zero => intro t h; exact h
  | succ n ih =>
    intro t h
    unfold updateRun
    apply ih
    rw [updateStep_steps, updateStep_transitionProbs, List.foldl_append, ← h]
    rfl

theorem updateOps_fold {α : Type} [Add α] (H : Header α) (readBins : Nat)
    (read : BamSeq) (ref : Transcript) (p mass : α) (tp : MatrixSet α) (cigar : List Nat) :
    ∀ t : TrainVars α,
      t.transitionProbs =
        t.steps.foldl (fun ms st => ms.incrementAt st.bin st.prev st.cur (mass + p)) tp →
      (updateOps H readBins read ref p mass cigar t).transitionProbs =
        (updateOps H readBins read ref p mass cigar t).steps.foldl
          (fun ms st => ms.incrementAt st.bin st.prev st.cur (mass + p)) tp := by
  induction cigar with
  | nil => intro t h; exact h
  | cons w cigar ih =>
    intro t h
    unfold updateOps
    apply ih
    apply updateRun_fold
    exact h

theorem update_fold {α : Type} [Add α] (H : Header α) (readBins : Nat) (read : BamSeq)
    (ref : Transcript) (p mass : α) (transitionProbs : MatrixSet α) :
    (update H readBins read ref p mass transitionProbs).transitionProbs =
      (update H readBins read ref p mass transitionProbs).steps.foldl
        (fun ms st => ms.incrementAt st.bin st.prev st.cur (mass + p)) transitionProbs := by
  rw [update_eq_updateOps]
  apply updateOps_fold
  rfl

/-- C17: when the adjusted start cursor is below the reference length and the
operation list is not empty, the training walk increments, in order, exactly
the cells `(bin, previousState, currentState)` whose log-probabilities the
scoring walk adds to its accumulator, each by the weight `mass + p`: the two
walks record the same steps, the score is the sum over these steps from
`LOG_1`, and the trained matrix set is the result of the increments at these
steps. -/
theorem update_cells_eq_logLikelihood_cells {α : Type} [AddZeroClass α] (H : Header α)
    (readBins : Nat) (read : BamSeq) (ref : Transcript) (transitionProbs : MatrixSet α)
    (p mass : α) (w : Nat) (cigar : List Nat)
    (hstart : (max read.pos 0).toNat < ref.RefLength)
    (hcigar : read.cigar = some (w :: cigar)) :
    (update H readBins read ref p mass transitionProbs).steps =
        (logLikelihoodVars H readBins read ref transitionProbs).steps ∧
      logLikelihood H readBins read ref transitionProbs =
        (logLikelihoodVars H readBins read ref transitionProbs).steps.foldl
          (fun acc st => acc + transitionProbs st.bin st.prev st.cur) LOG_1 ∧
      (update H readBins read ref p mass transitionProbs).transitionProbs =
        (logLikelihoodVars H readBins read ref transitionProbs).steps.foldl
          (fun ms st => ms.incrementAt st.bin st.prev st.cur (mass + p)) transitionProbs := by
  have hu : ¬ ref.RefLength ≤ (scoreInit H read (LOG_1 : α)).uTranscriptIdx := by
    rw [scoreInit_uTranscriptIdx]; exact not_le.mpr hstart
  have hv : logLikelihoodVars H readBins read ref transitionProbs =
      logLikelihoodOps H readBins read ref transitionProbs (w :: cigar)
        (scoreInit H read (LOG_1 : α)) := by
    unfold logLikelihoodVars
    rw [if_neg hu, hcigar]
  have hsteps : (update H readBins read ref p mass transitionProbs).steps =
      (logLikelihoodVars H readBins read ref transitionProbs).steps := by
    rw [update_steps_eq H readBins read ref p mass transitionProbs (LOG_1 : α), hv, hcigar]
    rfl
  refine ⟨hsteps, ?_, ?_⟩
  · unfold logLikelihood
    rw [hv]
    apply logLikelihoodOps_fold
    rfl
  · rw [← hsteps]
    exact update_fold H readBins read ref p mass transitionProbs

theorem update_cells_eq_logLikelihood_cells_witness :
    (max (exRead 0 4 [cigarWord 4 .BAM_CMATCH]).pos 0).toNat < (exRef 10).RefLength ∧
      (update exHeader 4 (exRead 0 4 [cigarWord 4 .BAM_CMATCH]) (exRef 10) 0 (-2)
          exLeft).steps =
        (logLikelihoodVars exHeader 4 (exRead 0 4 [cigarWord 4 .BAM_CMATCH]) (exRef 10)
          exLeft).steps :=
  ⟨by decide,
    (update_cells_eq_logLikelihood_cells exHeader 4 (exRead 0 4 [cigarWord 4 .BAM_CMATCH])
      (exRef 10) exLeft 0 (-2) (cigarWord 4 .BAM_CMATCH) [] (by decide) rfl).1⟩

/-! ## The guards in front of the walks -/

/-- C11, evaluated where it fails: on an enabled model whose maximum expected
read length is `3`, the unpaired `ReadPair` hit whose read has length `4` is
walked and scored `-10` (as a left orphan) or `-474` (as a right orphan), not
`0`; the same read as an `UnpairedRead` hit, and a pair that contains it, are
scored `0`. -/
theorem logLikelihoodReadPair_orphan_too_long :
    ({ exModel 4 with maxExpectedLen_ := 3 } : AlignmentModel Int).maxExpectedLen_ <
        (exRead 0 4 [cigarWord 4 .BAM_CMATCH]).len ∧
      logLikelihoodReadPair exHeader { exModel 4 with maxExpectedLen_ := 3 }
          ⟨some (exRead 0 4 [cigarWord 4 .BAM_CMATCH]), none, .LeftOrphan⟩ (exRef 10) =
        some (-10) ∧
      logLikelihoodReadPair exHeader { exModel 4 with maxExpectedLen_ := 3 }
          ⟨some (exRead 0 4 [cigarWord 4 .BAM_CMATCH]), none, .RightOrphan⟩ (exRef 10) =
        some (-474) ∧
      logLikelihoodUnpairedRead exHeader { exModel 4 with maxExpectedLen_ := 3 }
          ⟨some (exRead 0 4 [cigarWord 4 .BAM_CMATCH]), true⟩ (exRef 10) = some 0 ∧
      logLikelihoodReadPair exHeader { exModel 4 with maxExpectedLen_ := 3 }
          ⟨some (exRead 0 4 [cigarWord 4 .BAM_CMATCH]), some (exReadG 3), .Paired⟩ (exRef 10) =
        some 0 := by
  decide

/-- C12, evaluated where it fails: on an enabled model whose maximum expected
read length is `3`, training with the read of length `4` increments cells:
as an `UnpairedRead` hit the left cell `(0, 81, 9)` goes from `-1` to `-3`;
as a mate of a pair the left cell `(0, 81, 9)` goes from `-1` to `-3` and the
right cell `(0, 81, 29)` from `-129` to `-131`. -/
theorem update_too_long_increments :
    ({ exModel 4 with maxExpectedLen_ := 3 } : AlignmentModel Int).maxExpectedLen_ <
        (exRead 0 4 [cigarWord 4 .BAM_CMATCH]).len ∧
      exLeft 0 81 9 = -1 ∧ exRight 0 81 29 = -129 ∧
      (updateUnpairedRead exHeader { exModel 4 with maxExpectedLen_ := 3 }
          ⟨some (exRead 0 4 [cigarWord 4 .BAM_CMATCH]), true⟩ (exRef 10) 0 (-2)).map
          (fun m => m.transitionProbsLeft_ 0 81 9) = some (-3) ∧
      (updateReadPair exHeader { exModel 4 with maxExpectedLen_ := 3 }
          ⟨some (exRead 0 4 [cigarWord 4 .BAM_CMATCH]), some (exReadG 3), .Paired⟩ (exRef 10)
          0 (-2)).map
          (fun m => (m.transitionProbsLeft_ 0 81 9, m.transitionProbsRight_ 0 81 29)) =
        some (-3, -131) := by
  decide

/-- C13: training with a mass equal to `LOG_0` returns the model as it was,
for every hit, paired or unpaired, every reference and every posterior
probability: every cell of every matrix of both sets keeps its value. -/
theorem update_mass_LOG_0 {α : Type} [AddZeroClass α] [DecidableEq α] (H : Header α)
    (m : AlignmentModel α) (ref : Transcript) (p : α) :
    (∀ hit : ReadPair, updateReadPair H m hit ref p H.LOG_0 = some m) ∧
      (∀ hit : UnpairedRead, updateUnpairedRead H m hit ref p H.LOG_0 = some m) ∧
      (∀ (hit : ReadPair) (m1 : AlignmentModel α),
        updateReadPair H m hit ref p H.LOG_0 = some m1 →
        ∀ bin r c, m1.transitionProbsLeft_ bin r c = m.transitionProbsLeft_ bin r c ∧
          m1.transitionProbsRight_ bin r c = m.transitionProbsRight_ bin r c) ∧
      (∀ (hit : UnpairedRead) (m1 : AlignmentModel α),
        updateUnpairedRead H m hit ref p H.LOG_0 = some m1 →
        ∀ bin r c, m1.transitionProbsLeft_ bin r c = m.transitionProbsLeft_ bin r c ∧
          m1.transitionProbsRight_ bin r c = m.transitionProbsRight_ bin r c) := by
  have h1 : ∀ hit : ReadPair, updateReadPair H m hit ref p H.LOG_0 = some m := by
    intro hit
    simp [updateReadPair]
  have h2 : ∀ hit : UnpairedRead, updateUnpairedRead H m hit ref p H.LOG_0 = some m := by
    intro hit
    simp [updateUnpairedRead]
  refine ⟨h1, h2, ?_, ?_⟩
  · intro hit m1 hm bin r c
    rw [h1 hit] at hm
    cases hm
    exact ⟨rfl, rfl⟩
  · intro hit m1 hm bin r c
    rw [h2 hit] at hm
    cases hm
    exact ⟨rfl, rfl⟩

/-- C14: training with an `UnpairedRead` hit (whose read pointer is not null)
returns a model whose right matrix set is the one it had, cell by cell,
whatever the orphan flag of the hit, the reference, `p` and the mass; its
left set is either unchanged or the result of the training walk on the left
set. -/
theorem updateUnpairedRead_right_unchanged {α : Type} [AddZeroClass α] [DecidableEq α]
    (H : Header α) (m : AlignmentModel α) (hit : UnpairedRead) (read : BamSeq)
    (ref : Transcript) (p mass : α) (hread : hit.read = some read) :
    ∃ m1, updateUnpairedRead H m hit ref p mass = some m1 ∧
      (∀ bin r c, m1.transitionProbsRight_ bin r c = m.transitionProbsRight_ bin r c) ∧
      (m1.transitionProbsLeft_ = m.transitionProbsLeft_ ∨
        m1.transitionProbsLeft_ =
          (update H m.readBins_ read ref p mass m.transitionProbsLeft_).transitionProbs) := by
  unfold updateUnpairedRead
  by_cases h0 : mass = H.LOG_0
  · exact ⟨m, by simp [h0], fun _ _ _ => rfl, Or.inl rfl⟩
  · by_cases he : m.isEnabled_ = true
    · refine ⟨{ m with
        transitionProbsLeft_ :=
          (update H m.readBins_ read ref p mass m.transitionProbsLeft_).transitionProbs }, ?_,
        fun _ _ _ => rfl, Or.inr rfl⟩
      simp [h0, he, hread]
    · exact ⟨m, by simp [h0, he], fun _ _ _ => rfl, Or.inl rfl⟩

theorem updateUnpairedRead_right_unchanged_witness :
    (⟨some (exRead 0 4 [cigarWord 4 .BAM_CMATCH]), false⟩ : UnpairedRead).read =
        some (exRead 0 4 [cigarWord 4 .BAM_CMATCH]) ∧
      ∃ m1, updateUnpairedRead exHeader (exModel 4)
          ⟨some (exRead 0 4 [cigarWord 4 .BAM_CMATCH]), false⟩ (exRef 10) 0 (-2) = some m1 ∧
        (∀ bin r c,
          m1.transitionProbsRight_ bin r c = (exModel 4).transitionProbsRight_ bin r c) ∧
        (m1.transitionProbsLeft_ = (exModel 4).transitionProbsLeft_ ∨
          m1.transitionProbsLeft_ =
            (update exHeader (exModel 4).readBins_ (exRead 0 4 [cigarWord 4 .BAM_CMATCH])
              (exRef 10) 0 (-2) (exModel 4).transitionProbsLeft_).transitionProbs) :=
  ⟨rfl,
    updateUnpairedRead_right_unchanged exHeader (exModel 4)
      ⟨some (exRead 0 4 [cigarWord 4 .BAM_CMATCH]), false⟩
      (exRead 0 4 [cigarWord 4 .BAM_CMATCH]) (exRef 10) 0 (-2) rfl⟩

/-! ## Insertions and deletions -/

theorem hasIndelOps_iff (cigar : List Nat) :
    hasIndelOps cigar = true ↔
      ∃ w ∈ cigar, cigar_op.ofCode (w &&& BAM_CIGAR_MASK) = .BAM_CINS ∨
        cigar_op.ofCode (w &&& BAM_CIGAR_MASK) = .BAM_CDEL := by
  induction cigar with
  | nil => simp [hasIndelOps]
  | cons w cigar ih =>
    unfold hasIndelOps
    cases hop : cigar_op.ofCode (w &&& BAM_CIGAR_MASK) <;> simp [hop, ih]

/-- C20: `hasIndel` of a read is true exactly when one of its CIGAR words
carries the insertion or the deletion code, whatever the run length in the
word; on an `UnpairedRead` hit it is `hasIndel` of the read; on a `ReadPair`
hit it is `hasIndel(read1)` when the hit is not paired and
`hasIndel(read1) or hasIndel(read2)` when it is. -/
theorem hasIndel_spec :
    (∀ read : BamSeq, hasIndel read = true ↔
        ∃ w ∈ read.cigar.getD [], cigar_op.ofCode (w &&& BAM_CIGAR_MASK) = .BAM_CINS ∨
          cigar_op.ofCode (w &&& BAM_CIGAR_MASK) = .BAM_CDEL) ∧
      (∀ (opLen : Nat) (op : cigar_op) (read : BamSeq) (cigar : List Nat),
        read.cigar = some cigar → cigarWord opLen op ∈ cigar →
        op = .BAM_CINS ∨ op = .BAM_CDEL → hasIndel read = true) ∧
      (∀ (read : BamSeq) (flag : Bool),
        hasIndelUnpairedRead ⟨some read, flag⟩ = some (hasIndel read)) ∧
      (∀ (read1 : BamSeq) (read2 : Option BamSeq) (st : OrphanStatus), st ≠ .Paired →
        hasIndelReadPair ⟨some read1, read2, st⟩ = some (hasIndel read1)) ∧
      (∀ read1 read2 : BamSeq,
        hasIndelReadPair ⟨some read1, some read2, .Paired⟩ =
          some (hasIndel read1 || hasIndel read2)) := by
  have hmain : ∀ read : BamSeq, hasIndel read = true ↔
      ∃ w ∈ read.cigar.getD [], cigar_op.ofCode (w &&& BAM_CIGAR_MASK) = .BAM_CINS ∨
        cigar_op.ofCode (w &&& BAM_CIGAR_MASK) = .BAM_CDEL := by
    intro read
    unfold hasIndel
    cases hc : read.cigar with
    | none => simp
    | some cigar => simpa using hasIndelOps_iff cigar
  refine ⟨hmain, ?_, ?_, ?_, ?_⟩
  · intro opLen op read cigar hc hw hop
    rw [hmain, hc]
    refine ⟨cigarWord opLen op, hw, ?_⟩
    rw [cigarWord_op]
    exact hop
  · intro read flag
    rfl
  · intro read1 read2 st hst
    cases st <;> simp_all [hasIndelReadPair, ReadPair.isPaired]
  · intro read1 read2
    cases h1 : hasIndel read1 <;> simp [hasIndelReadPair, ReadPair.isPaired, h1]

/-! ## Unknown operations, reference lookups and the bin of every step -/

/-- C18, as stated, fails: the read whose edit script is two unit steps of an
unknown operation is not skipped over: each step reads the cell of the
decoded categories, the second step's previous state is the first step's
state `9` and not the start state `81`, the score is `-2` and not `0`, and
training increments the cell `(0, 81, 9)` from `-1` to `-3`. -/
theorem unknown_step_not_skipped :
    (logLikelihoodVars exHeader 4 (exRead 0 4 [cigarWord 2 .BAM_UNKNOWN]) (exRef 10)
          exLeft).steps =
        [⟨.BAM_UNKNOWN, 0, 0, 0, 81, 9⟩, ⟨.BAM_UNKNOWN, 0, 0, 0, 9, 9⟩] ∧
      logLikelihood exHeader 4 (exRead 0 4 [cigarWord 2 .BAM_UNKNOWN]) (exRef 10) exLeft = -2 ∧
      exLeft 0 81 9 = -1 ∧
      (update exHeader 4 (exRead 0 4 [cigarWord 2 .BAM_UNKNOWN]) (exRef 10) 0 (-2)
          exLeft).transitionProbs 0 81 9 = -3 := by
  decide

/-- C18, amended: a unit step whose operation is unknown overrides no
category and is carried out like any other step: its composite state is
`curRefBase * numStates + curReadBase` for the categories held at the step,
scoring adds the log-probability of the cell (bin, previous state, that
state) to the accumulator, training increments that cell by `mass + p`, the
step is recorded, and the previous state becomes that state for the next
step; in a walk every such step's state is that of the categories decoded at
its cursors. -/
theorem unknown_step_is_walked {α : Type} [AddZeroClass α] (H : Header α) (readBins : Nat)
    (read : BamSeq) (ref : Transcript) (transitionProbs : MatrixSet α) (p mass : α) :
    (∀ s : ScoreVars α,
        (logLikelihoodStep H readBins read ref transitionProbs .BAM_UNKNOWN s).logLike =
            s.logLike + transitionProbs s.readPosBin s.prevStateIdx
              (s.curRefBase * H.numStates + s.curReadBase) ∧
          (logLikelihoodStep H readBins read ref transitionProbs .BAM_UNKNOWN s).prevStateIdx =
            s.curRefBase * H.numStates + s.curReadBase ∧
          (logLikelihoodStep H readBins read ref transitionProbs .BAM_UNKNOWN s).steps =
            s.steps ++ [⟨.BAM_UNKNOWN, s.readIdx, s.uTranscriptIdx, s.readPosBin,
              s.prevStateIdx, s.curRefBase * H.numStates + s.curReadBase⟩]) ∧
      (∀ t : TrainVars α,
        (updateStep H readBins read ref p mass .BAM_UNKNOWN t).transitionProbs =
            t.transitionProbs.incrementAt t.readPosBin t.prevStateIdx
              (t.curRefBase * H.numStates + t.curReadBase) (mass + p) ∧
          (updateStep H readBins read ref p mass .BAM_UNKNOWN t).prevStateIdx =
            t.curRefBase * H.numStates + t.curReadBase ∧
          (updateStep H readBins read ref p mass .BAM_UNKNOWN t).steps =
            t.steps ++ [⟨.BAM_UNKNOWN, t.readIdx, t.uTranscriptIdx, t.readPosBin,
              t.prevStateIdx, t.curRefBase * H.numStates + t.curReadBase⟩]) ∧
      (∀ st ∈ (logLikelihoodVars H readBins read ref transitionProbs).steps,
        st.op = .BAM_UNKNOWN →
        st.cur = refCategory H ref st.refIdx * H.numStates + readCategory H read st.readIdx) ∧
      (∀ st ∈ (update H readBins read ref p mass transitionProbs).steps,
        st.op = .BAM_UNKNOWN →
        st.cur = refCategory H ref st.refIdx * H.numStates + readCategory H read st.readIdx) := by
  refine ⟨?_, ?_, ?_, ?_⟩
  · intro s
    rw [logLikelihoodStep_logLike, logLikelihoodStep_prevStateIdx, logLikelihoodStep_steps]
    exact ⟨rfl, rfl, rfl⟩
  · intro t
    rw [updateStep_transitionProbs, updateStep_prevStateIdx, updateStep_steps]
    exact ⟨rfl, rfl, rfl⟩
  · intro st hst hop
    rcases logLikelihoodVars_steps_nil_or H readBins read ref transitionProbs with h | h
    · rw [h] at hst
      exact absurd hst (List.not_mem_nil st)
    · obtain ⟨cigar, _, hv⟩ := h
      rw [hv] at hst
      have h := logLikelihoodOps_encoded H readBins read ref transitionProbs cigar
        (scoreInit H read (LOG_1 : α)) (fun st hst => absurd hst (List.not_mem_nil st)) st hst
      rw [h, hop]
      simp [encoderState, encoderCategories]
  · intro st hst hop
    rw [update_steps_eq H readBins read ref p mass transitionProbs (LOG_1 : α)] at hst
    have h := logLikelihoodOps_encoded H readBins read ref transitionProbs
      (read.cigar.getD []) (scoreInit H read (LOG_1 : α))
      (fun st hst => absurd hst (List.not_mem_nil st)) st hst
    rw [h, hop]
    simp [encoderState, encoderCategories]

/-- C19, evaluated where it fails: the read with the edit script `4M` at start
offset `6` lies inside the reference of length `10` (`6 + 4 <= 10`); the
scoring walk calls `baseAt` at `6, 7, 8, 9` and then at `10`, the reference
length. -/
theorem logLikelihood_lookup_at_RefLength :
    (exRef 10).RefLength = 10 ∧
      (logLikelihoodVars exHeader 4 (exRead 6 4 [cigarWord 4 .BAM_CMATCH]) (exRef 10)
          exLeft).refLookups = [6, 7, 8, 9, 10] := by
  decide

theorem logLikelihoodStep_bin {α : Type} [Add α] (H : Header α) (readBins : Nat)
    (read : BamSeq) (ref : Transcript) (transitionProbs : MatrixSet α) (op : cigar_op)
    (r0 : Nat) (s : ScoreVars α)
    (hcur : s.readPosBin = posBin readBins read.len s.readIdx ∨
      (s.readIdx = r0 ∧ s.readPosBin = 0))
    (hsteps : ∀ st ∈ s.steps, st.bin = posBin readBins read.len st.readIdx ∨
      (st.readIdx = r0 ∧ st.bin = 0)) :
    ((logLikelihoodStep H readBins read ref transitionProbs op s).readPosBin =
          posBin readBins read.len
            (logLikelihoodStep H readBins read ref transitionProbs op s).readIdx ∨
        ((logLikelihoodStep H readBins read ref transitionProbs op s).readIdx = r0 ∧
          (logLikelihoodStep H readBins read ref transitionProbs op s).readPosBin = 0)) ∧
      (∀ st ∈ (logLikelihoodStep H readBins read ref transitionProbs op s).steps,
        st.bin = posBin readBins read.len st.readIdx ∨ (st.readIdx = r0 ∧ st.bin = 0)) := by
  constructor
  · rw [logLikelihoodStep_readPosBin, logLikelihoodStep_readIdx]
    by_cases hs : BAM_CONSUME_SEQ H op = true
    · simp [hs]
    · simpa [hs] using hcur
  · intro st hst
    rw [logLikelihoodStep_steps, List.mem_append] at hst
    rcases hst with hst | hst
    · exact hsteps st hst
    · rw [List.mem_singleton] at hst
      subst hst
      exact hcur

theorem logLikelihoodRun_bin {α : Type} [Add α] (H : Header α) (readBins : Nat)
    (read : BamSeq) (ref : Transcript) (transitionProbs : MatrixSet α) (op : cigar_op)
    (r0 : Nat) (opLen : Nat) :
    ∀ s : ScoreVars α,
      (s.readPosBin = posBin readBins read.len s.readIdx ∨
        (s.readIdx = r0 ∧ s.readPosBin = 0)) →
      (∀ st ∈ s.steps, st.bin = posBin readBins read.len st.readIdx ∨
        (st.readIdx = r0 ∧ st.bin = 0)) →
      ((logLikelihoodRun H readBins read ref transitionProbs op opLen s).readPosBin =
            posBin readBins read.len
              (logLikelihoodRun H readBins read ref transitionProbs op opLen s).readIdx ∨
          ((logLikelihoodRun H readBins read ref transitionProbs op opLen s).readIdx = r0 ∧
            (logLikelihoodRun H readBins read ref transitionProbs op opLen s).readPosBin = 0)) ∧
        (∀ st ∈ (logLikelihoodRun H readBins read ref transitionProbs op opLen s).steps,
          st.bin = posBin readBins read.len st.readIdx ∨ (st.readIdx = r0 ∧ st.bin = 0)) := by
  induction opLen with
  | zero => intro s hcur hsteps; exact ⟨hcur, hsteps⟩
  | succ n ih =>
    intro s hcur hsteps
    have h := logLikelihoodStep_bin H readBins read ref transitionProbs op r0 s hcur hsteps
    exact ih _ h.1 h.2

theorem logLikelihoodOps_bin {α : Type} [Add α] (H : Header α) (readBins : Nat)
    (read : BamSeq) (ref : Transcript) (transitionProbs : MatrixSet α) (r0 : Nat)
    (cigar : List Nat) :
    ∀ s : ScoreVars α,
      (s.readPosBin = posBin readBins read.len s.readIdx ∨
        (s.readIdx = r0 ∧ s.readPosBin = 0)) →
      (∀ st ∈ s.steps, st.bin = posBin readBins read.len st.readIdx ∨
        (st.readIdx = r0 ∧ st.bin = 0)) →
      ∀ st ∈ (logLikelihoodOps H readBins read ref transitionProbs cigar s).steps,
        st.bin = posBin readBins read.len st.readIdx ∨ (st.readIdx = r0 ∧ st.bin = 0) := by
  induction cigar with
  | nil => intro s _ hsteps; exact hsteps
  | cons w cigar ih =>
    intro s hcur hsteps
    unfold logLikelihoodOps
    have h := logLikelihoodRun_bin H readBins read ref transitionProbs
      (cigar_op.ofCode (w &&& BAM_CIGAR_MASK)) r0 (w >>> BAM_CIGAR_SHIFT)
      { s with
        curReadBase := H.samToTwoBit (read.seq s.readIdx)
        curRefBase := H.samToTwoBit (ref.baseAt s.uTranscriptIdx)
        refLookups := s.refLookups ++ [s.uTranscriptIdx] } hcur hsteps
    exact ih _ h.1 h.2

theorem scoreInit_bin {α : Type} (H : Header α) (readBins : Nat) (read : BamSeq)
    (transitionProbs : MatrixSet α) (cigar : List Nat) [Add α] (ref : Transcript) (v : α) :
    ∀ st ∈ (logLikelihoodOps H readBins read ref transitionProbs cigar
        (scoreInit H read v)).steps,
      (0 ≤ read.pos ∨ (-read.pos).toNat < st.readIdx) →
      st.bin = posBin readBins read.len st.readIdx := by
  intro st hst hpos
  have h := logLikelihoodOps_bin H readBins read ref transitionProbs
    (scoreInit H read v).readIdx cigar (scoreInit H read v) (Or.inr ⟨rfl, rfl⟩)
    (fun st hst => absurd hst (List.not_mem_nil st)) st hst
  rcases h with h | ⟨h1, h2⟩
  · exact h
  · rcases hpos with hpos | hpos
    · have h0 : (scoreInit H read v).readIdx = 0 := by
        simp [scoreInit, not_lt.mpr hpos]
      rw [h1, h2, h0, posBin_zero]
    · exfalso
      have hneg : read.pos < 0 := by
        by_contra hc
        have h0 : (scoreInit H read v).readIdx = 0 := by simp [scoreInit, hc]
        have hz : (-read.pos).toNat = 0 := by
          apply Int.toNat_eq_zero.mpr
          omega
        omega
      have hr : (scoreInit H read v).readIdx = (-read.pos).toNat := by
        simp [scoreInit, hneg]
      omega

/-- C16, as stated, fails twice.  The read `4M` of length `4` that starts `2`
bases before the reference takes its first step at read cursor `2` with bin
`0`, where `floor(2 * 4 / 4) = 2`.  And the read `98M` of length `98` at start
offset `0` takes the step at read cursor `49` with bin `1`, where
`floor(49 * 4 / 98) = 2`, because the bin is computed in binary64.  Both hold
for the scoring walk and for the training walk. -/
theorem walk_bin_not_floor :
    (logLikelihoodVars exHeader 4 (exRead (-2) 4 [cigarWord 4 .BAM_CMATCH]) (exRef 10)
          exLeft).steps.map (fun st => (st.readIdx, st.bin)) =
        [(2, 0), (3, 3), (4, 4), (5, 5)] ∧
      (update exHeader 4 (exRead (-2) 4 [cigarWord 4 .BAM_CMATCH]) (exRef 10) 0 (-2)
          exLeft).steps.map (fun st => (st.readIdx, st.bin)) =
        [(2, 0), (3, 3), (4, 4), (5, 5)] ∧
      2 * 4 / 4 = 2 ∧
      ((logLikelihoodVars exHeader 4 (exRead 0 98 [cigarWord 98 .BAM_CMATCH]) (exRef 98)
          exLeft).steps.filter (fun st => st.readIdx = 49)).map Step.bin = [1] ∧
      ((update exHeader 4 (exRead 0 98 [cigarWord 98 .BAM_CMATCH]) (exRef 98) 0 (-2)
          exLeft).steps.filter (fun st => st.readIdx = 49)).map Step.bin = [1] ∧
      49 * 4 / 98 = 2 := by
  decide

/-- C16, amended: for a read of positive length, at every unit step of the
scoring walk and of the training walk whose read cursor `c` has moved past its
initial value (or, when the start offset is not negative, at every step), the
bin used is the one the code computes from `c` in binary64,
`uint32(double(c) * (double(binCount) / readLength))`. -/
theorem walk_bin_posBin {α : Type} [AddZeroClass α] (H : Header α) (readBins : Nat)
    (read : BamSeq) (ref : Transcript) (transitionProbs : MatrixSet α) (p mass : α)
    (hlen : 0 < read.len) :
    (∀ st ∈ (logLikelihoodVars H readBins read ref transitionProbs).steps,
        (0 ≤ read.pos ∨ (-read.pos).toNat < st.readIdx) →
        st.bin = posBin readBins read.len st.readIdx) ∧
      (∀ st ∈ (update H readBins read ref p mass transitionProbs).steps,
        (0 ≤ read.pos ∨ (-read.pos).toNat < st.readIdx) →
        st.bin = posBin readBins read.len st.readIdx) := by
  have _ := hlen
  constructor
  · intro st hst
    rcases logLikelihoodVars_steps_nil_or H readBins read ref transitionProbs with h | h
    · rw [h] at hst
      exact absurd hst (List.not_mem_nil st)
    · obtain ⟨cigar, _, hv⟩ := h
      rw [hv] at hst
      exact scoreInit_bin H readBins read transitionProbs cigar ref (LOG_1 : α) st hst
  · intro st hst
    rw [update_steps_eq H readBins read ref p mass transitionProbs (LOG_1 : α)] at hst
    exact scoreInit_bin H readBins read transitionProbs (read.cigar.getD []) ref (LOG_1 : α)
      st hst

theorem walk_bin_posBin_witness :
    0 < (exRead (-2) 4 [cigarWord 4 .BAM_CMATCH]).len ∧
      (∀ st ∈ (logLikelihoodVars exHeader 4 (exRead (-2) 4 [cigarWord 4 .BAM_CMATCH])
          (exRef 10) exLeft).steps,
        (0 ≤ (exRead (-2) 4 [cigarWord 4 .BAM_CMATCH]).pos ∨
          (-(exRead (-2) 4 [cigarWord 4 .BAM_CMATCH]).pos).toNat < st.readIdx) →
        st.bin = posBin 4 (exRead (-2) 4 [cigarWord 4 .BAM_CMATCH]).len st.readIdx) :=
  ⟨by decide,
    (walk_bin_posBin exHeader 4 (exRead (-2) 4 [cigarWord 4 .BAM_CMATCH]) (exRef 10) exLeft
      0 (-2) (by decide)).1⟩

end Sailfish
